import Mathlib

/-!
Verification development for the trogon repository.

This file shallowly embeds the data model of `trogon/introspect.py`
(`MultiValueParamData`, `OptionSchema`, `ArgumentSchema`, `CommandSchema`)
and the operations of `trogon/run_command.py` (`UserOptionData`,
`UserArgumentData`, `UserCommandData` with `fill_defaults`, `_to_cli_args`,
`to_cli_args`, `to_cli_string`) and proves properties of them.

Python values that occur as option/argument values are modelled by a
stratified domain: `PyScalar` (None, the `ValueNotSupplied` sentinel, ints,
strings, bools), `PyItem` (a scalar or a tuple of scalars — the shapes that
occur as elements of a value list and as emitted CLI tokens), and `PyVal`
(a scalar, a tuple of scalars, or a list of items — the shapes that occur
as `UserOptionData.value` / `UserArgumentData.value` and as raw defaults).
This matches every value shape the program produces: option tuples hold
scalars, and defaults/argument values are at most lists of such tuples.

Fallible Python operations (`int(...)`, `name[0]`, `max`/`min` of an empty
list, `.values` on a non-`MultiValueParamData`, iterating a non-iterable,
and `sorted` itself) are modelled in the `Except PyErr` monad.  On this
domain Python's `<` is defined between numbers (ints and bools), between
strings, and between the `ValueNotSupplied` sentinel and everything
(`ValueNotSupplied` carries `functools.total_ordering` with `__lt__`
returning `False`, so the reflected `__gt__` makes every other value
strictly below the sentinel and `sorted` places sentinels last); every
other pair raises `TypeError`.  `sorted` is modelled as raising
`TypeError` exactly when the list contains a pair on which `<` is
undefined — CPython's sort compares across every boundary between
incomparable elements — and as the stable ascending sort otherwise.
-/

set_option autoImplicit false

/-- A scalar Python value. -/
inductive PyScalar where
  | none
  | sentinel
  | int (n : Int)
  | str (s : String)
  | bool (b : Bool)
deriving DecidableEq, Repr

/-- A scalar or a tuple of scalars: the shape of elements of value lists
and of the tokens accumulated by `_to_cli_args`. -/
inductive PyItem where
  | scalar (a : PyScalar)
  | tuple (xs : List PyScalar)
deriving DecidableEq, Repr

/-- A raw Python value as stored in `UserOptionData.value`,
`UserArgumentData.value` or passed to `process_cli_option`. -/
inductive PyVal where
  | scalar (a : PyScalar)
  | tuple (xs : List PyScalar)
  | list (xs : List PyItem)
deriving DecidableEq, Repr

/-- Errors raised by the modelled Python operations. -/
inductive PyErr where
  | valueError
  | typeError
  | indexError
  | attributeError
deriving DecidableEq, Repr

/-- Normalization underlying Python `==` on scalars: bools are equal to the
corresponding ints (`True == 1`, `False == 0`). -/
def pyScalarNorm : PyScalar → PyScalar
  | .bool b => .int (if b then 1 else 0)
  | v => v

/-- Python `==` on scalars. -/
def pyScalarEq (a b : PyScalar) : Bool := pyScalarNorm a = pyScalarNorm b

/-- Python `==` on items (a tuple is never equal to a scalar). -/
def pyItemEq (a b : PyItem) : Bool :=
  match a, b with
  | .scalar x, .scalar y => pyScalarEq x y
  | .tuple xs, .tuple ys => xs.map pyScalarNorm = ys.map pyScalarNorm
  | _, _ => false

/-- Python `value == ValueNotSupplied()` for a scalar. -/
def isNotSupplied (v : PyScalar) : Bool := pyScalarEq v .sentinel

/-- Python `item == ValueNotSupplied()` for an item. -/
def itemNotSupplied (v : PyItem) : Bool := pyItemEq v (.scalar .sentinel)

/-- Python `str` of a scalar.  (`str` of the `ValueNotSupplied` sentinel is
its default object rendering; a fixed string stands in for it.) -/
def pyScalarStr : PyScalar → String
  | .none => "None"
  | .sentinel => "<ValueNotSupplied>"
  | .int n => toString n
  | .str s => s
  | .bool b => if b then "True" else "False"

/-- Python `repr` of a scalar (strings get quotes). -/
def pyScalarRepr : PyScalar → String
  | .str s => String.singleton (Char.ofNat 39) ++ s ++ String.singleton (Char.ofNat 39)
  | v => pyScalarStr v

/-- Python `str` of an item (tuples render as their `repr`). -/
def pyItemStr : PyItem → String
  | .scalar a => pyScalarStr a
  | .tuple [x] => "(" ++ pyScalarRepr x ++ ",)"
  | .tuple xs => "(" ++ String.intercalate ", " (xs.map pyScalarRepr) ++ ")"

/-- Numeric view shared by Python ints and bools (`True` behaves as `1`). -/
def pyNumVal : PyScalar → Option Int
  | .int n => some n
  | .bool b => some (if b then 1 else 0)
  | _ => none

/-- Lexicographic comparison of character lists by code point
(Python string `<`). -/
def charListLt : List Char → List Char → Bool
  | [], [] => false
  | [], _ :: _ => true
  | _ :: _, [] => false
  | a :: as, b :: bs => if a < b then true else if b < a then false else charListLt as bs

/-- Python `<` on strings. -/
def strLt (a b : String) : Bool := charListLt a.data b.data

/-- Python `<` on the pairs of this domain on which it is defined:
`ValueNotSupplied.__lt__` always returns `False` and (via
`functools.total_ordering`) the reflected `__gt__` makes every other value
strictly below the sentinel; numbers compare numerically, strings
lexicographically by code point.  (On pairs on which Python's `<` is
undefined the result is irrelevant — `pySortedE` raises there.) -/
def pyLt (a b : PyScalar) : Bool :=
  if a = .sentinel then false
  else if b = .sentinel then true
  else
    match pyNumVal a, pyNumVal b with
    | some x, some y => decide (x < y)
    | _, _ =>
      match a, b with
      | .str s, .str t => strLt s t
      | _, _ => false

/-- Stable insertion of `a` into a `pyLt`-sorted list: `a` goes before the
first element not strictly below it (Python `sorted` stability). -/
def pyInsert (a : PyScalar) : List PyScalar → List PyScalar
  | [] => [a]
  | b :: bs => if pyLt b a then b :: pyInsert a bs else a :: b :: bs

/-- The stable ascending sort underlying the model of Python `sorted`
(meaningful on lists every pair of which Python can compare). -/
def pySorted (l : List PyScalar) : List PyScalar := l.foldr pyInsert []

/-- Whether a scalar is a Python string. -/
def PyScalar.isStr : PyScalar → Bool
  | .str _ => true
  | _ => false

/-- Whether Python's `<` is defined between two scalars of this domain:
numbers (ints and bools) compare with numbers, strings with strings, and
the `ValueNotSupplied` sentinel compares with everything (its
`total_ordering` methods accept any operand).  `None` compares with
nothing but the sentinel. -/
def pyComparable (a b : PyScalar) : Bool :=
  a = .sentinel || b = .sentinel ||
    ((pyNumVal a).isSome && (pyNumVal b).isSome) || (a.isStr && b.isStr)

/-- Whether every pair of elements of a list is comparable. -/
def allComparable : List PyScalar → Bool
  | [] => true
  | x :: xs => xs.all (fun y => pyComparable x y) && allComparable xs

/-- Model of Python `sorted` on scalar lists: `TypeError` when the list
holds a pair Python cannot compare (CPython's sort compares across every
boundary between two incomparable elements), the stable ascending sort
otherwise. -/
def pySortedE (l : List PyScalar) : Except PyErr (List PyScalar) :=
  if allComparable l then .ok (pySorted l) else .error .typeError

/-- Stable insertion for string sorting. -/
def strInsert (a : String) : List String → List String
  | [] => [a]
  | b :: bs => if strLt b a then b :: strInsert a bs else a :: b :: bs

/-- Model of Python `sorted` on lists of strings. -/
def strSorted (l : List String) : List String := l.foldr strInsert []

/-- The ASCII characters Python's `str.strip()` removes (code points 9-13,
28-31 and 32; non-ASCII whitespace is outside the scope modelled here,
see `asciiOnly`). -/
def isPySpace (c : Char) : Bool :=
  (9 ≤ c.toNat && c.toNat ≤ 13) || (28 ≤ c.toNat && c.toNat ≤ 31) || c.toNat = 32

/-- Whitespace stripping on a character list (both ends). -/
def stripWs (cs : List Char) : List Char :=
  ((cs.dropWhile isPySpace).reverse.dropWhile isPySpace).reverse

/-- The digit grammar of the body of a Python decimal int literal after
its first digit: digits, with single underscores allowed only between two
digits (PEP 515). -/
def digitsUnderscore : List Char → Bool
  | [] => true
  | '_' :: [] => false
  | '_' :: c :: cs => c.isDigit && digitsUnderscore cs
  | c :: cs => c.isDigit && digitsUnderscore cs

/-- Parses a decimal integer the way Python `int(str)` does on ASCII
strings: optional surrounding whitespace, optional sign, then digits with
optional single underscores between digits.  (Python also accepts
non-ASCII decimal digits and whitespace; ASCII-only strings, where this
parser is faithful, are flagged by `asciiOnly`.) -/
def pyParseInt (s : String) : Except PyErr Int :=
  let t := stripWs s.data
  let neg : Bool := t.headD ' ' == '-'
  let core := if t.headD ' ' == '-' || t.headD ' ' == '+' then t.drop 1 else t
  if core.headD '_' == '_' || !(digitsUnderscore core) then .error .valueError
  else
    let n : Int :=
      (core.filter (fun c => c != '_')).foldl
        (fun acc c => acc * 10 + ((c.toNat : Int) - 48)) 0
    if neg then .ok (-n) else .ok n

/-- Whether every character of a string is ASCII. -/
def asciiOnly (s : String) : Bool := s.data.all (fun c => c.toNat < 128)

/-- Python `int(value)`: ints unchanged, bools to 0/1, strings parsed
(raising `ValueError` when unparseable), anything else raises `TypeError`. -/
def pyInt : PyScalar → Except PyErr Int
  | .int n => .ok n
  | .bool b => .ok (if b then 1 else 0)
  | .str s => pyParseInt s
  | _ => .error .typeError

/-- Python iteration over a raw value: tuples and lists yield their
elements, strings yield their characters, other scalars raise `TypeError`. -/
def pyIter : PyVal → Except PyErr (List PyItem)
  | .tuple xs => .ok (xs.map .scalar)
  | .list xs => .ok xs
  | .scalar (.str s) => .ok (s.data.map (fun c => .scalar (.str (String.singleton c))))
  | .scalar _ => .error .typeError

/-- Characters `shlex.quote` leaves unquoted: ASCII letters, digits, and
the punctuation underscore, at-sign, percent, plus, equals, colon, comma,
dot, slash, dash. -/
def shlexSafeChar (c : Char) : Bool :=
  (decide ('a' ≤ c) && decide (c ≤ 'z')) || (decide ('A' ≤ c) && decide (c ≤ 'Z')) ||
    (decide ('0' ≤ c) && decide (c ≤ '9')) ||
    c == '_' || c == '@' || c == '%' || c == '+' || c == '=' || c == ':' ||
    c == ',' || c == '.' || c == '/' || c == '-'

/-- A single-quote character, and its one-character string. -/
def squote : Char := Char.ofNat 39

def squoteS : String := String.singleton squote

/-- Replacement of every single quote by the sequence quote,
double-quote, quote, double-quote, quote (the `s.replace` in
`shlex.quote`). -/
def shlexEscapeChars : List Char → List Char
  | [] => []
  | c :: cs =>
    if c = squote then squote :: '"' :: squote :: '"' :: squote :: shlexEscapeChars cs
    else c :: shlexEscapeChars cs

/-- Model of `shlex.quote`. -/
def shlexQuote (s : String) : String :=
  if s.data.isEmpty then squoteS ++ squoteS
  else if s.data.all shlexSafeChar then s
  else squoteS ++ String.mk (shlexEscapeChars s.data) ++ squoteS

instance {ε α : Type} [DecidableEq ε] [DecidableEq α] : DecidableEq (Except ε α) :=
  fun a b =>
    match a, b with
    | .ok x, .ok y => decidable_of_iff (x = y) (by simp)
    | .error e, .error f => decidable_of_iff (e = f) (by simp)
    | .ok _, .error _ => isFalse (fun h => Except.noConfusion h)
    | .error _, .ok _ => isFalse (fun h => Except.noConfusion h)

example : pyScalarStr (.int 42) = "42" := by decide
example : pyScalarStr (.bool true) = "True" := by decide
example : pySorted [.str "10", .str "2"] = [.str "10", .str "2"] := by decide
example : pySorted [.int 10, .int 2] = [.int 2, .int 10] := by decide
example : pyScalarEq (.int 1) (.bool true) = true := by decide
example : pyScalarEq (.int 42) (.str "42") = false := by decide
example : pyInt (.str "abc") = .error .valueError := by decide
example : pyInt (.str "37") = .ok 37 := by decide
example : pyInt (.str "-5") = .ok (-5) := by decide
example : pyInt (.str "1_0") = .ok 10 := by decide
example : pyInt (.str "1__0") = .error .valueError := by decide
example : pyInt (.str "_1") = .error .valueError := by decide
example : pyInt (.str "1_") = .error .valueError := by decide
example : pySortedE [.int 1, .str "a"] = .error .typeError := by decide
example : pySortedE [.str "a", .sentinel, .int 2] = .error .typeError := by decide
example : pySortedE [.int 5, .sentinel, .int 3] = .ok [.int 3, .int 5, .sentinel] := by
  decide
example : pySortedE [.sentinel, .sentinel] = .ok [.sentinel, .sentinel] := by decide
example : pySortedE [.none, .int 1] = .error .typeError := by decide
example : shlexQuote "abc" = "abc" := by decide
example : shlexQuote "a b" = squoteS ++ "a b" ++ squoteS := by decide

/-- Python `min(names, key=len)` over a nonempty list: the first element of
minimal length. -/
def minByLen1 (x : String) : List String → String
  | [] => x
  | y :: ys => minByLen1 (if y.length < x.length then y else x) ys

/-- Python `max(names, key=len)` over a nonempty list: the first element of
maximal length. -/
def maxByLen1 (x : String) : List String → String
  | [] => x
  | y :: ys => maxByLen1 (if x.length < y.length then y else x) ys

/-- Python `min(l, key=len)` (raising `ValueError` on an empty list). -/
def pyMinByLen : List String → Except PyErr String
  | [] => .error .valueError
  | x :: xs => .ok (minByLen1 x xs)

/-- Python `max(l, key=len)` (raising `ValueError` on an empty list). -/
def pyMaxByLen : List String → Except PyErr String
  | [] => .error .valueError
  | x :: xs => .ok (maxByLen1 x xs)

/-- Python `s.startswith("--")`. -/
def startsWithDashDash (s : String) : Bool :=
  match s.data with
  | '-' :: '-' :: _ => true
  | _ => false

/-- Python `s.lstrip("-")`. -/
def lstripDash (s : String) : String :=
  String.mk (s.data.dropWhile (fun c => c == '-'))

/-- Python `s * n` for a string and a nonnegative count. -/
def strRepeat (s : String) : Nat → String
  | 0 => ""
  | n + 1 => s ++ strRepeat s n

/-- `MultiValueParamData` from `trogon/introspect.py`: the canonical
list-of-tuples value container. -/
structure MultiValueParamData where
  values : List (List PyScalar)
deriving DecidableEq, Repr

/-- `MultiValueParamData.process_cli_option`: `None` becomes the empty
list, a tuple is wrapped as a one-element list, each element of a list is
kept if it is a tuple and wrapped as a one-tuple otherwise, and any other
scalar becomes a single one-tuple. -/
def MultiValueParamData.process_cli_option : PyVal → MultiValueParamData
  | .scalar .none => ⟨[]⟩
  | .tuple t => ⟨[t]⟩
  | .list items => ⟨items.map (fun i => match i with | .tuple t => t | .scalar a => [a])⟩
  | .scalar a => ⟨[[a]]⟩

/-- `OptionSchema` from `trogon/introspect.py`.  Only the fields read by
`run_command.py` are modelled; `type`, `required`, `is_boolean_flag`,
`flag_value`, `opts`, `key`, `help`, `choices`, `multi_value` and `nargs`
are only consumed by the UI layer and are omitted. -/
structure OptionSchema where
  name : List String
  default : Option MultiValueParamData := Option.none
  is_flag : Bool := false
  counting : Bool := false
  secondary_opts : List String := []
  multiple : Bool := false
deriving DecidableEq, Repr

/-- `ArgumentSchema` from `trogon/introspect.py` (same field policy as
`OptionSchema`). -/
structure ArgumentSchema where
  name : String
  default : Option MultiValueParamData := Option.none
deriving DecidableEq, Repr

/-- `CommandSchema`: name, options, arguments and subcommand schemas (the
subcommand dict is modelled by its values in insertion order; its keys are
never read by the modelled operations, which match on `cmd.name`). -/
inductive CommandSchema where
  | mk (name : String) (options : List OptionSchema) (arguments : List ArgumentSchema)
      (subcommands : List CommandSchema)

def CommandSchema.name : CommandSchema → String
  | .mk n _ _ _ => n

def CommandSchema.options : CommandSchema → List OptionSchema
  | .mk _ o _ _ => o

def CommandSchema.arguments : CommandSchema → List ArgumentSchema
  | .mk _ _ a _ => a

def CommandSchema.subcommands : CommandSchema → List CommandSchema
  | .mk _ _ _ s => s

/-- `UserOptionData.name`: a single flag string or a list of spellings. -/
inductive PyName where
  | str (s : String)
  | list (l : List String)
deriving DecidableEq, Repr

/-- `UserOptionData.string_name`: the name itself for a plain string, the
first spelling for a list (raising `IndexError` on an empty list). -/
def PyName.stringName : PyName → Except PyErr String
  | .str s => .ok s
  | .list [] => .error .indexError
  | .list (s :: _) => .ok s

/-- Python `opt.name == option_schema.name` (a plain string never equals a
list of strings). -/
def pyNameEqList (n : PyName) (m : List String) : Bool :=
  match n with
  | .str _ => false
  | .list l => l = m

/-- `UserOptionData` from `trogon/run_command.py`. -/
structure UserOptionData where
  name : PyName
  value : PyVal
  option_schema : OptionSchema
deriving DecidableEq, Repr

/-- `UserArgumentData` from `trogon/run_command.py`. -/
structure UserArgumentData where
  name : String
  value : PyVal
  argument_schema : ArgumentSchema
deriving DecidableEq, Repr

/-- `UserCommandData` from `trogon/run_command.py`.  The `parent`
back-reference and the `command_schema` field are omitted: neither is read
by `fill_defaults`, `_to_cli_args`, `to_cli_args` or `to_cli_string`. -/
inductive UserCommandData where
  | mk (name : String) (options : List UserOptionData) (arguments : List UserArgumentData)
      (subcommand : Option UserCommandData)

def UserCommandData.name : UserCommandData → String
  | .mk n _ _ _ => n

def UserCommandData.options : UserCommandData → List UserOptionData
  | .mk _ o _ _ => o

def UserCommandData.arguments : UserCommandData → List UserArgumentData
  | .mk _ _ a _ => a

def UserCommandData.subcommand : UserCommandData → Option UserCommandData
  | .mk _ _ _ s => s

/-- `process_cli_option(option.value).values` for a single-occurrence
option (`run_command.py`, non-multiple branch). -/
def valueDataOf (o : UserOptionData) : List (List PyScalar) :=
  (MultiValueParamData.process_cli_option o.value).values

/-- `any(value != ValueNotSupplied() for value in l)`. -/
def anySupplied (l : List PyScalar) : Bool := l.any (fun v => !(isNotSupplied v))

/-- `list(map(str, a)) == list(map(str, b))`.  Exactly Python's comparison
on sentinel-free lists; theorems that consult its value keep sentinels out
of the compared lists (Python renders each sentinel instance as a distinct
object repr, for which the fixed placeholder of `pyScalarStr` does not
stand in faithfully). -/
def strCastEq (a b : List PyScalar) : Bool :=
  decide (a.map pyScalarStr = b.map pyScalarStr)

/-- The flag spelling `_to_cli_args` picks for a single-occurrence option:
the name itself when it is a plain string, otherwise the shortest spelling
for counting options and the longest spelling for all others. -/
def chosenOptionName (o : UserOptionData) : Except PyErr String :=
  match o.name with
  | .str s => .ok s
  | .list l => if o.option_schema.counting then pyMinByLen l else pyMaxByLen l

/-- `value_data == [(True,)]` under Python equality. -/
def isTrueBool (vd : List (List PyScalar)) : Bool :=
  decide (vd.map (List.map pyScalarNorm) = [[.int 1]])

/-- Tokens contributed by one non-multiple option in `_to_cli_args`. -/
def singleOptArgs (o : UserOptionData) : Except PyErr (List PyItem) := do
  let value_data := valueDataOf o
  let default_data ← match o.option_schema.default with
    | Option.some d => pure d.values
    | Option.none => throw PyErr.attributeError
  let flattened_values ← pySortedE value_data.flatten
  let flattened_defaults ← pySortedE default_data.flatten
  if anySupplied flattened_values && !(strCastEq flattened_values flattened_defaults) then
    let option_name ← chosenOptionName o
    if o.option_schema.is_flag then
      if isTrueBool value_data then
        pure [.scalar (.str option_name)]
      else
        match o.option_schema.secondary_opts with
        | [] => pure []
        | s :: ss => pure [.scalar (.str (maxByLen1 s ss))]
    else
      if !o.option_schema.counting then
        pure (.scalar (.str option_name) :: value_data.flatten.map .scalar)
      else do
        let count ← match value_data.flatten with
          | [] => pure (1 : Int)
          | v :: _ => pyInt v
        if startsWithDashDash option_name then
          pure (List.replicate count.toNat (.scalar (.str option_name)))
        else
          pure [.scalar (.str ("-" ++ strRepeat (lstripDash option_name) count.toNat))]
  else
    pure []

/-- One entry of the `multiples` / `multiples_schemas` dictionaries:
insertion-ordered key, gathered occurrence values, last-assigned schema. -/
structure MultiGroup where
  key : String
  values : List PyVal
  schema : OptionSchema
deriving DecidableEq, Repr

/-- `multiples[key].append(value); multiples_schemas[key] = schema`. -/
def addToGroups (gs : List MultiGroup) (key : String) (v : PyVal) (os : OptionSchema) :
    List MultiGroup :=
  match gs with
  | [] => [⟨key, [v], os⟩]
  | g :: rest =>
    if g.key = key then ⟨key, g.values ++ [v], os⟩ :: rest
    else g :: addToGroups rest key v os

/-- Gathers the `multiple=True` options of a command into groups keyed by
`string_name`, in first-occurrence order. -/
def buildGroups (acc : List MultiGroup) : List UserOptionData → Except PyErr (List MultiGroup)
  | [] => .ok acc
  | o :: rest =>
    if o.option_schema.multiple then do
      let key ← o.name.stringName
      buildGroups (addToGroups acc key o.value o.option_schema) rest
    else buildGroups acc rest

/-- Iteration of each of a list of raw values (the
`chain.from_iterable(values)` traversal, value by value). -/
def pyIterAll : List PyVal → Except PyErr (List (List PyItem))
  | [] => .ok []
  | v :: vs => do
    let x ← pyIter v
    let xs ← pyIterAll vs
    pure (x :: xs)

/-- Tokens contributed by one `multiples` group in `_to_cli_args`.
(`multiples_schemas[option_name].default or []` evaluates to the Python
list `[]` when the default is `None`, whose `.values` raises
`AttributeError`.) -/
def multiGroupArgs (option_name : String) (values : List PyVal) (os : OptionSchema) :
    Except PyErr (List PyItem) := do
  let defaults ← match os.default with
    | Option.some d => pure d.values
    | Option.none => throw PyErr.attributeError
  let default_values := defaults.flatten
  let supplied_defaults :=
    strSorted ((default_values.filter (fun v => !(isNotSupplied v))).map pyScalarStr)
  let tuples ← pyIterAll values
  let supplied_values :=
    strSorted ((tuples.flatten.filter (fun v => !(itemNotSupplied v))).map pyItemStr)
  let values_are_defaults := decide (supplied_values = supplied_defaults)
  let values_supplied := supplied_values.any (fun s => !(itemNotSupplied (.scalar (.str s))))
  if values_supplied && !values_are_defaults then
    pure (tuples.flatMap (fun t =>
      if t.all itemNotSupplied then [] else .scalar (.str option_name) :: t))
  else
    pure []

/-- Tokens contributed by one argument in `_to_cli_args`: every element of
its value that is not the sentinel, in order. -/
def argumentArgs (a : UserArgumentData) : Except PyErr (List PyItem) := do
  let items ← pyIter a.value
  pure (items.filter (fun v => !(itemNotSupplied v)))

/-- Inline tokens of the first option loop (non-multiple options, in
order; multiple options contribute nothing inline). -/
def singlesArgs : List UserOptionData → Except PyErr (List PyItem)
  | [] => .ok []
  | o :: rest => do
    let part ← if o.option_schema.multiple then pure [] else singleOptArgs o
    let restParts ← singlesArgs rest
    pure (part ++ restParts)

/-- Tokens of the `multiples` emission loop, group by group. -/
def groupsArgs : List MultiGroup → Except PyErr (List PyItem)
  | [] => .ok []
  | g :: rest => do
    let part ← multiGroupArgs g.key g.values g.schema
    let restParts ← groupsArgs rest
    pure (part ++ restParts)

/-- Tokens of the argument loop. -/
def argumentsArgs : List UserArgumentData → Except PyErr (List PyItem)
  | [] => .ok []
  | a :: rest => do
    let part ← argumentArgs a
    let restParts ← argumentsArgs rest
    pure (part ++ restParts)

/-- Tokens of one command level of `_to_cli_args` (command name, inline
single-option tokens, multiples tokens, argument tokens). -/
def commandLevelArgs (name : String) (opts : List UserOptionData)
    (args : List UserArgumentData) : Except PyErr (List PyItem) := do
  let singleParts ← singlesArgs opts
  let groups ← buildGroups [] opts
  let multiParts ← groupsArgs groups
  let argParts ← argumentsArgs args
  pure (.scalar (.str name) :: (singleParts ++ multiParts ++ argParts))

/-- `UserCommandData._to_cli_args`. -/
def UserCommandData.toCliArgsAux : UserCommandData → Except PyErr (List PyItem)
  | .mk name opts args Option.none => commandLevelArgs name opts args
  | .mk name opts args (Option.some s) => do
    let level ← commandLevelArgs name opts args
    let subParts ← s.toCliArgsAux
    pure (level ++ subParts)

/-- `UserCommandData.to_cli_args`: the root command name token is dropped
unless `include_root_command` is set. -/
def UserCommandData.toCliArgs (d : UserCommandData) (include_root_command : Bool) :
    Except PyErr (List PyItem) := do
  let cli_args ← d.toCliArgsAux
  pure (if include_root_command then cli_args else cli_args.drop 1)

/-- One rendered token of `to_cli_string`: `shlex.quote(str(arg))`, or the
`???` placeholder for the `ValueNotSupplied` sentinel. -/
def cliTextToken (arg : PyItem) : String :=
  if itemNotSupplied arg then "???" else shlexQuote (pyItemStr arg)

/-- The individually rendered tokens of `UserCommandData.to_cli_string`. -/
def UserCommandData.toCliStringTokens (d : UserCommandData) (include_root_command : Bool) :
    Except PyErr (List String) := do
  let args ← d.toCliArgs include_root_command
  pure (args.map cliTextToken)

/-- `UserCommandData.to_cli_string` (`Text(" ").join(...)` as plain text). -/
def UserCommandData.toCliString (d : UserCommandData) (include_root_command : Bool) :
    Except PyErr String := do
  let toks ← d.toCliStringTokens include_root_command
  pure (String.intercalate " " toks)

/-- One step of the option half of `fill_defaults`: for a schema option
with a non-`None` default and no entry of the same name yet, append one
`UserOptionData` per default tuple. -/
def optBlock (os : OptionSchema) (opts : List UserOptionData) : List UserOptionData :=
  match os.default with
  | Option.none => opts
  | Option.some d =>
    if opts.any (fun o => pyNameEqList o.name os.name) then opts
    else opts ++ d.values.map (fun t => ⟨.list os.name, .tuple t, os⟩)

def fillDefaultsOptions : List OptionSchema → List UserOptionData → List UserOptionData
  | [], opts => opts
  | os :: rest, opts => fillDefaultsOptions rest (optBlock os opts)

/-- One step of the argument half of `fill_defaults`: for a schema
argument with a non-`None` default and no entry of the same name yet,
append one `UserArgumentData` whose value is the whole default tuple
list. -/
def argBlock (a : ArgumentSchema) (args : List UserArgumentData) : List UserArgumentData :=
  match a.default with
  | Option.none => args
  | Option.some d =>
    if args.any (fun u => u.name == a.name) then args
    else args ++ [⟨a.name, .list (d.values.map .tuple), a⟩]

def fillDefaultsArguments : List ArgumentSchema → List UserArgumentData → List UserArgumentData
  | [], args => args
  | a :: rest, args => fillDefaultsArguments rest (argBlock a args)

/-- `UserCommandData.fill_defaults` (as a pure transform returning the
mutated command data). -/
def UserCommandData.fillDefaults : UserCommandData → CommandSchema → UserCommandData
  | .mk name opts args Option.none, cs =>
    .mk name (fillDefaultsOptions cs.options opts) (fillDefaultsArguments cs.arguments args)
      Option.none
  | .mk name opts args (Option.some s), cs =>
    let sub :=
      match cs.subcommands.find? (fun c => c.name == s.name) with
      | Option.none => Option.some s
      | Option.some subSchema => Option.some (s.fillDefaults subSchema)
    .mk name (fillDefaultsOptions cs.options opts) (fillDefaultsArguments cs.arguments args) sub

@[simp] theorem except_bind_ok {ε α β : Type} (a : α) (f : α → Except ε β) :
    (Except.ok a >>= f : Except ε β) = f a := rfl

@[simp] theorem except_bind_error {ε α β : Type} (e : ε) (f : α → Except ε β) :
    (Except.error e >>= f : Except ε β) = Except.error e := rfl

@[simp] theorem except_pure_eq {ε α : Type} (a : α) : (pure a : Except ε α) = Except.ok a := rfl

@[simp] theorem except_map_ok {ε α β : Type} (f : α → β) (a : α) :
    (f <$> Except.ok a : Except ε β) = Except.ok (f a) := rfl

@[simp] theorem except_bind_ok_id {ε α : Type} (m : Except ε α) :
    (m >>= fun a => (Except.ok a : Except ε α)) = m := by cases m <;> rfl

theorem mem_pyInsert {a b : PyScalar} {l : List PyScalar} :
    a ∈ pyInsert b l ↔ a = b ∨ a ∈ l := by
  induction l with
  | nil => simp [pyInsert]
  | cons c cs ih =>
    by_cases h : pyLt c b
    · simp [pyInsert, h, ih]
      tauto
    · simp [pyInsert, h]

theorem mem_pySorted {a : PyScalar} {l : List PyScalar} : a ∈ pySorted l ↔ a ∈ l := by
  induction l with
  | nil => simp [pySorted]
  | cons b bs ih =>
    simp only [pySorted, List.foldr_cons] at *
    rw [mem_pyInsert, ih]
    simp

/-- Inversion of a successful `pySortedE`. -/
theorem pySortedE_ok {l sv : List PyScalar} (h : pySortedE l = .ok sv) :
    sv = pySorted l ∧ allComparable l = true := by
  by_cases hc : allComparable l
  · rw [pySortedE, if_pos hc] at h
    exact ⟨(Except.ok.injEq _ _).mp h.symm, hc⟩
  · rw [pySortedE, if_neg hc] at h
    exact absurd h (fun h => Except.noConfusion h)

/-- A non-multiple option whose sorts succeed and whose code-order
comparison matches the default, or all of whose flattened sub-values are
the sentinel, contributes no tokens. -/
theorem singleOptArgs_suppressed {o : UserOptionData} {d : MultiValueParamData}
    {sv sd : List PyScalar}
    (hd : o.option_schema.default = Option.some d)
    (hsv : pySortedE (valueDataOf o).flatten = .ok sv)
    (hsd : pySortedE d.values.flatten = .ok sd)
    (h : sv.map pyScalarStr = sd.map pyScalarStr
        ∨ ∀ v ∈ (valueDataOf o).flatten, v = PyScalar.sentinel) :
    singleOptArgs o = .ok [] := by
  rcases h with h | h
  · have hdef : strCastEq sv sd = true := by simp [strCastEq, h]
    simp [singleOptArgs, hd, hsv, hsd, hdef]
  · have hsup : anySupplied sv = false := by
      simp only [anySupplied, List.any_eq_false, Bool.not_eq_true]
      intro v hv
      have hvl : v ∈ (valueDataOf o).flatten :=
        mem_pySorted.mp ((pySortedE_ok hsv).1 ▸ hv)
      have := h v hvl
      simp [this, isNotSupplied, pyScalarEq, pyScalarNorm]
    simp [singleOptArgs, hd, hsv, hsd, hsup]

/-- Removing a non-multiple option that contributes no tokens does not
change the inline single-option token list. -/
theorem singlesArgs_drop_mid {o : UserOptionData} (ho : o.option_schema.multiple = false)
    (h : singleOptArgs o = .ok []) (l1 l2 : List UserOptionData) :
    singlesArgs (l1 ++ o :: l2) = singlesArgs (l1 ++ l2) := by
  induction l1 with
  | nil => simp [singlesArgs, ho, h]
  | cons p ps ih => simp [singlesArgs, ih]

/-- Removing a non-multiple option does not change the multiples groups. -/
theorem buildGroups_drop_mid {o : UserOptionData} (ho : o.option_schema.multiple = false)
    (acc : List MultiGroup) (l1 l2 : List UserOptionData) :
    buildGroups acc (l1 ++ o :: l2) = buildGroups acc (l1 ++ l2) := by
  induction l1 generalizing acc with
  | nil => simp [buildGroups, ho]
  | cons p ps ih =>
    by_cases hp : p.option_schema.multiple
    · simp only [List.cons_append, buildGroups, hp, if_true]
      cases hk : p.name.stringName with
      | ok k => simp [ih]
      | error e => simp
    · simp only [List.cons_append, buildGroups, hp, if_false]
      exact ih acc

theorem commandLevelArgs_drop_mid {o : UserOptionData} (ho : o.option_schema.multiple = false)
    (h : singleOptArgs o = .ok []) (name : String) (l1 l2 : List UserOptionData)
    (args : List UserArgumentData) :
    commandLevelArgs name (l1 ++ o :: l2) args = commandLevelArgs name (l1 ++ l2) args := by
  simp [commandLevelArgs, singlesArgs_drop_mid ho h, buildGroups_drop_mid ho]

/-- The spec's comparison for claim C1: the sorted string-cast flattening
of a tuple list (its string multiset, as a sorted list of strings). -/
def sortedStringCast (vd : List (List PyScalar)) : List String :=
  strSorted (vd.flatten.map pyScalarStr)

/-- The option used in the counterexample to C1: a non-repeatable
two-value option with int defaults `(2, 10)` supplied as the strings
`("10", "2")`. -/
def osC1 : OptionSchema := { name := ["--opt"], default := Option.some ⟨[[.int 2, .int 10]]⟩ }

def uoC1 : UserOptionData := ⟨.list ["--opt"], .tuple [.str "10", .str "2"], osC1⟩

def cmdC1 : UserCommandData := .mk "test" [uoC1] [] Option.none

/-- C1 fails as stated: the sorted string-cast flattening of the supplied
values equals the sorted string-cast flattening of the defaults (both are
`["10", "2"]` as string multisets), yet `to_cli_args` emits the option —
the code compares the string casts of the value-sorted flattenings
(`["10", "2"]` vs `["2", "10"]`), which differ. -/
theorem C1_counterexample :
    sortedStringCast (valueDataOf uoC1) = sortedStringCast [[.int 2, .int 10]]
    ∧ osC1.default = Option.some ⟨[[.int 2, .int 10]]⟩
    ∧ uoC1.option_schema.multiple = false
    ∧ cmdC1.toCliArgs false
        = .ok [.scalar (.str "--opt"), .scalar (.str "10"), .scalar (.str "2")]
    ∧ PyItem.scalar (.str "--opt")
        ∈ [PyItem.scalar (.str "--opt"), .scalar (.str "10"), .scalar (.str "2")] := by
  refine ⟨by decide, rfl, rfl, by decide, by decide⟩

/-- C1 (amended): for every non-repeatable option whose sorts of the
flattened supplied values and of the flattened default values both
succeed (no `TypeError`), if the string casts of the two sorted
flattenings coincide — with the compared lists sentinel-free, where the
string cast is exactly Python's — or every flattened sub-value is the
not-supplied sentinel, then the option contributes no token to
`to_cli_args`: the output is the same as if the option were absent. -/
theorem C1_amended_suppression (b : Bool) (cmdName : String)
    (l1 l2 : List UserOptionData) (args : List UserArgumentData)
    (sub : Option UserCommandData) (o : UserOptionData) (d : MultiValueParamData)
    (sv sd : List PyScalar)
    (hm : o.option_schema.multiple = false)
    (hd : o.option_schema.default = Option.some d)
    (hsv : pySortedE (valueDataOf o).flatten = .ok sv)
    (hsd : pySortedE d.values.flatten = .ok sd)
    (h : (PyScalar.sentinel ∉ sv ∧ PyScalar.sentinel ∉ sd
          ∧ sv.map pyScalarStr = sd.map pyScalarStr)
        ∨ ∀ v ∈ (valueDataOf o).flatten, v = PyScalar.sentinel) :
    (UserCommandData.mk cmdName (l1 ++ o :: l2) args sub).toCliArgs b
      = (UserCommandData.mk cmdName (l1 ++ l2) args sub).toCliArgs b := by
  have hok := singleOptArgs_suppressed hd hsv hsd
    (h.imp (fun hh => hh.2.2) id)
  cases sub with
  | none =>
    simp [UserCommandData.toCliArgs, UserCommandData.toCliArgsAux,
      commandLevelArgs_drop_mid hm hok]
  | some s =>
    simp [UserCommandData.toCliArgs, UserCommandData.toCliArgsAux,
      commandLevelArgs_drop_mid hm hok]

def uoC1w : UserOptionData :=
  ⟨.list ["--eq"], .tuple [.int 3], { name := ["--eq"], default := Option.some ⟨[[.int 3]]⟩ }⟩

theorem C1_witness :
    uoC1w.option_schema.multiple = false
    ∧ uoC1w.option_schema.default = Option.some ⟨[[.int 3]]⟩
    ∧ pySortedE (valueDataOf uoC1w).flatten = .ok [.int 3]
    ∧ pySortedE ([[.int 3]] : List (List PyScalar)).flatten = .ok [.int 3]
    ∧ PyScalar.sentinel ∉ [PyScalar.int 3]
    ∧ ([PyScalar.int 3].map pyScalarStr = [PyScalar.int 3].map pyScalarStr)
    ∧ (UserCommandData.mk "t" ([] ++ uoC1w :: []) [] Option.none).toCliArgs false
        = (UserCommandData.mk "t" ([] ++ []) [] Option.none).toCliArgs false :=
  ⟨rfl, rfl, by decide, by decide, by decide, rfl,
    C1_amended_suppression false "t" [] [] [] Option.none uoC1w ⟨[[.int 3]]⟩
      [.int 3] [.int 3] rfl rfl (by decide) (by decide)
      (Or.inl ⟨by decide, by decide, rfl⟩)⟩

/-- C3: `process_cli_option` maps `None` to an empty tuple list, a tuple
`t` to `[t]`, a list to the same-order list in which each non-tuple
element is wrapped as a one-tuple and each tuple element is kept, and any
other scalar `v` to `[(v,)]`. -/
theorem C3_process_cases :
    (MultiValueParamData.process_cli_option (.scalar .none)).values = []
    ∧ (∀ t : List PyScalar,
        (MultiValueParamData.process_cli_option (.tuple t)).values = [t])
    ∧ (∀ items : List PyItem,
        (MultiValueParamData.process_cli_option (.list items)).values
          = items.map (fun i => match i with | .tuple t => t | .scalar a => [a]))
    ∧ (∀ a : PyScalar, a ≠ .none →
        (MultiValueParamData.process_cli_option (.scalar a)).values = [[a]]) := by
  refine ⟨rfl, fun t => rfl, fun items => rfl, fun a ha => ?_⟩
  cases a with
  | none => exact absurd rfl ha
  | sentinel => rfl
  | int n => rfl
  | str s => rfl
  | bool b => rfl

theorem C3_witness :
    (PyScalar.int 5 ≠ PyScalar.none)
    ∧ (MultiValueParamData.process_cli_option (.scalar (.int 5))).values = [[.int 5]] :=
  ⟨by decide, C3_process_cases.2.2.2 (.int 5) (by decide)⟩

/-- For a command holding exactly one non-multiple option and nothing
else, `to_cli_args` (root excluded) is exactly that option's
contribution. -/
theorem toCliArgs_single (cmdName : String) (o : UserOptionData)
    (ho : o.option_schema.multiple = false) :
    (UserCommandData.mk cmdName [o] [] Option.none).toCliArgs false = singleOptArgs o := by
  cases h : singleOptArgs o with
  | ok part =>
    simp [UserCommandData.toCliArgs, UserCommandData.toCliArgsAux, commandLevelArgs,
      singlesArgs, buildGroups, groupsArgs, argumentsArgs, ho, h]
  | error e =>
    simp [UserCommandData.toCliArgs, UserCommandData.toCliArgsAux, commandLevelArgs,
      singlesArgs, buildGroups, groupsArgs, argumentsArgs, ho, h]

/-- `maxByLen1` picks an element of the list it inspects. -/
theorem maxByLen1_mem : ∀ (x : String) (xs : List String), maxByLen1 x xs ∈ x :: xs
  | x, [] => by simp [maxByLen1]
  | x, y :: ys => by
    have h := maxByLen1_mem (if x.length < y.length then y else x) ys
    simp only [maxByLen1]
    by_cases hl : x.length < y.length
    · simp only [hl, if_true] at h ⊢
      rcases List.mem_cons.mp h with h | h
      · simp [h]
      · simp [h]
    · simp only [hl, if_false] at h ⊢
      rcases List.mem_cons.mp h with h | h
      · simp [h]
      · simp [h]

/-- C7: for a non-repeatable, non-counting boolean flag option
(`is_flag = True`) that is supplied and differs from its default (the
sorts of the sentinel-free flattened values and defaults succeed and
their string casts differ): effective value `True` emits exactly the
chosen primary spelling (the longest declared spelling) with no value
token; effective value `False` with declared secondary spellings emits
the longest secondary spelling and — as long as the secondary spellings
do not contain the primary spelling — the primary spelling does not
appear; effective value `False` with no secondary spellings emits
nothing. -/
theorem C7_flag_emission (cmdName : String) (o : UserOptionData) (n : String)
    (ns : List String) (d : MultiValueParamData) (sv sd : List PyScalar)
    (hm : o.option_schema.multiple = false)
    (hf : o.option_schema.is_flag = true)
    (hc : o.option_schema.counting = false)
    (hn : o.name = .list (n :: ns))
    (hd : o.option_schema.default = Option.some d)
    (hsv : pySortedE (valueDataOf o).flatten = .ok sv)
    (hsd : pySortedE d.values.flatten = .ok sd)
    (hnosv : PyScalar.sentinel ∉ sv)
    (hnosd : PyScalar.sentinel ∉ sd)
    (hsup : anySupplied sv = true)
    (hdef : strCastEq sv sd = false) :
    (isTrueBool (valueDataOf o) = true →
        (UserCommandData.mk cmdName [o] [] Option.none).toCliArgs false
          = .ok [.scalar (.str (maxByLen1 n ns))])
    ∧ (isTrueBool (valueDataOf o) = false → o.option_schema.secondary_opts = [] →
        (UserCommandData.mk cmdName [o] [] Option.none).toCliArgs false = .ok [])
    ∧ (∀ s ss, isTrueBool (valueDataOf o) = false →
        o.option_schema.secondary_opts = s :: ss →
        (UserCommandData.mk cmdName [o] [] Option.none).toCliArgs false
            = .ok [.scalar (.str (maxByLen1 s ss))]
          ∧ (maxByLen1 n ns ∉ s :: ss →
              PyItem.scalar (.str (maxByLen1 n ns))
                ∉ [PyItem.scalar (.str (maxByLen1 s ss))])) := by
  rw [toCliArgs_single cmdName o hm]
  refine ⟨fun ht => ?_, fun ht hsec => ?_, fun s ss ht hsec => ⟨?_, fun hnot => ?_⟩⟩
  · simp [singleOptArgs, hd, hsv, hsd, hsup, hdef, hf, ht, chosenOptionName, hn, hc,
      pyMaxByLen]
  · simp [singleOptArgs, hd, hsv, hsd, hsup, hdef, hf, ht, hsec, chosenOptionName, hn, hc,
      pyMaxByLen]
  · simp [singleOptArgs, hd, hsv, hsd, hsup, hdef, hf, ht, hsec, chosenOptionName, hn, hc,
      pyMaxByLen]
  · have hmem := maxByLen1_mem s ss
    simp only [List.mem_singleton]
    intro hcontra
    have : maxByLen1 n ns = maxByLen1 s ss := by
      have := congrArg (fun i => match i with
        | PyItem.scalar (.str t) => t
        | _ => "") hcontra
      simpa using this
    exact hnot (this ▸ hmem)

def uoC7w : UserOptionData :=
  ⟨.list ["--all"],
   .tuple [.bool false],
   { name := ["--all"], is_flag := true, secondary_opts := ["--not-all"],
     default := Option.some ⟨[[.bool true]]⟩ }⟩

theorem C7_witness :
    pySortedE (valueDataOf uoC7w).flatten = .ok [.bool false]
    ∧ pySortedE ([[.bool true]] : List (List PyScalar)).flatten = .ok [.bool true]
    ∧ anySupplied [.bool false] = true
    ∧ strCastEq [.bool false] [.bool true] = false
    ∧ isTrueBool (valueDataOf uoC7w) = false
    ∧ (UserCommandData.mk "t" [uoC7w] [] Option.none).toCliArgs false
        = .ok [.scalar (.str "--not-all")] :=
  ⟨by decide, by decide, by decide, by decide, by decide,
    ((C7_flag_emission "t" uoC7w "--all" [] ⟨[[.bool true]]⟩ [.bool false] [.bool true]
        rfl rfl rfl rfl rfl (by decide) (by decide) (by decide) (by decide)
        (by decide) (by decide)).2.2 "--not-all" [] (by decide) rfl).1⟩

/-- The counting option used against C6 and for C8's divergence: spellings
`-v`/`--verbose`, default `0`. -/
def osC6 : OptionSchema :=
  { name := ["-v", "--verbose"], counting := true, default := Option.some ⟨[[.int 0]]⟩ }

def cmdC6 : UserCommandData :=
  .mk "test" [⟨.list ["-v", "--verbose"], .tuple [.int 7], osC6⟩] [] Option.none

/-- C6 fails as stated: a counting option supplied the value `7` is
rendered as `-vvvvvvv` (seven repeats) — the count is not clamped to a
maximum of 5 (which would give `-vvvvv`). -/
theorem C6_counterexample :
    cmdC6.toCliArgs false = .ok [.scalar (.str "-vvvvvvv")]
    ∧ cmdC6.toCliArgs false ≠ .ok [.scalar (.str "-vvvvv")]
    ∧ (5 : Int) < 7 := by
  refine ⟨by decide, by decide, by decide⟩

/-- C6 (amended): for a counting option (list name) that is supplied and
differs from its default (the sorts of the sentinel-free flattened values
and defaults succeed and their string casts differ), the first flattened
sub-value is converted with `int(...)` — with no clamping whatsoever —
the shortest declared spelling is chosen, and a long spelling (starting
`--`) is emitted that many times while a short spelling is emitted as one
token of `-` followed by the dash-stripped spelling repeated that many
times (an int that is zero or negative thus yields no token, or the
degenerate token `-`). -/
theorem C6_amended_counting (cmdName : String) (o : UserOptionData) (n : String)
    (ns : List String) (d : MultiValueParamData) (sv sd : List PyScalar)
    (v : PyScalar) (vs : List PyScalar) (k : Int)
    (hm : o.option_schema.multiple = false)
    (hf : o.option_schema.is_flag = false)
    (hcnt : o.option_schema.counting = true)
    (hn : o.name = .list (n :: ns))
    (hd : o.option_schema.default = Option.some d)
    (hsv : pySortedE (valueDataOf o).flatten = .ok sv)
    (hsd : pySortedE d.values.flatten = .ok sd)
    (hnosv : PyScalar.sentinel ∉ sv)
    (hnosd : PyScalar.sentinel ∉ sd)
    (hsup : anySupplied sv = true)
    (hdef : strCastEq sv sd = false)
    (hflat : (valueDataOf o).flatten = v :: vs)
    (hk : pyInt v = .ok k) :
    (UserCommandData.mk cmdName [o] [] Option.none).toCliArgs false
      = .ok (if startsWithDashDash (minByLen1 n ns)
          then List.replicate k.toNat (.scalar (.str (minByLen1 n ns)))
          else [.scalar (.str ("-" ++ strRepeat (lstripDash (minByLen1 n ns)) k.toNat))]) := by
  rw [toCliArgs_single cmdName o hm]
  have hsv2 : pySortedE (v :: vs) = .ok sv := hflat ▸ hsv
  simp [singleOptArgs, hd, hsv2, hsd, hsup, hdef, hf, hcnt, chosenOptionName, hn,
    pyMinByLen, hflat, hk]
  split <;> rfl

theorem C6_witness :
    pySortedE (valueDataOf ⟨.list ["-v", "--verbose"], .tuple [.int 7], osC6⟩).flatten
      = .ok [.int 7]
    ∧ pySortedE ([[.int 0]] : List (List PyScalar)).flatten = .ok [.int 0]
    ∧ anySupplied [.int 7] = true
    ∧ strCastEq [.int 7] [.int 0] = false
    ∧ (valueDataOf ⟨.list ["-v", "--verbose"], .tuple [.int 7], osC6⟩).flatten = [.int 7]
    ∧ pyInt (.int 7) = .ok 7
    ∧ cmdC6.toCliArgs false
        = .ok (if startsWithDashDash (minByLen1 "-v" ["--verbose"])
            then List.replicate (Int.toNat 7) (.scalar (.str (minByLen1 "-v" ["--verbose"])))
            else [.scalar (.str ("-" ++ strRepeat (lstripDash (minByLen1 "-v" ["--verbose"]))
                (Int.toNat 7)))]) :=
  ⟨by decide, by decide, by decide, by decide, by decide, by decide,
    C6_amended_counting "test" ⟨.list ["-v", "--verbose"], .tuple [.int 7], osC6⟩
      "-v" ["--verbose"] ⟨[[.int 0]]⟩ [.int 7] [.int 0] (.int 7) [] 7 rfl rfl rfl rfl rfl
      (by decide) (by decide) (by decide) (by decide) (by decide) (by decide)
      (by decide) (by decide)⟩

def cmdC8 : UserCommandData :=
  .mk "test" [⟨.list ["-v", "--verbose"], .tuple [.str "abc"], osC6⟩] [] Option.none

/-- C8 fails as stated: a counting option whose supplied value is the
unparseable string `"abc"` does not fall back to a count of 1 — `int(...)`
raises `ValueError`, which propagates out of both `to_cli_args` and
`to_cli_string`. -/
theorem C8_counterexample :
    cmdC8.toCliArgs false = .error .valueError
    ∧ cmdC8.toCliString false = .error .valueError
    ∧ cmdC8.toCliArgs false ≠ .ok [.scalar (.str "-v")] := by
  refine ⟨by decide, by decide, by decide⟩

/-- C8 (amended): for a counting option that is supplied and differs from
its default (the sorts of the sentinel-free flattened values and defaults
succeed and their string casts differ), an unparseable first sub-value —
one on which `int(...)` raises, which for ASCII strings this model
decides exactly — makes the error propagate out of `to_cli_args`; the
fall-back count of 1 concerns only the case of an empty flattened value
tuple, and in that case the option is never emitted at all (so the
fallback never shows). -/
theorem C8_amended_count_error (cmdName : String) (o : UserOptionData) (n : String)
    (ns : List String) (d : MultiValueParamData) (sd : List PyScalar)
    (hm : o.option_schema.multiple = false)
    (hf : o.option_schema.is_flag = false)
    (hcnt : o.option_schema.counting = true)
    (hn : o.name = .list (n :: ns))
    (hd : o.option_schema.default = Option.some d)
    (hsd : pySortedE d.values.flatten = .ok sd)
    (hnosd : PyScalar.sentinel ∉ sd) :
    (∀ (sv : List PyScalar) (v : PyScalar) (vs : List PyScalar) (e : PyErr),
        pySortedE (valueDataOf o).flatten = .ok sv →
        PyScalar.sentinel ∉ sv →
        anySupplied sv = true →
        strCastEq sv sd = false →
        (∀ s, v = PyScalar.str s → asciiOnly s = true) →
        (valueDataOf o).flatten = v :: vs → pyInt v = .error e →
        (UserCommandData.mk cmdName [o] [] Option.none).toCliArgs false = .error e)
    ∧ ((valueDataOf o).flatten = [] →
        (UserCommandData.mk cmdName [o] [] Option.none).toCliArgs false = .ok []) := by
  constructor
  · intro sv v vs e hsv hnosv hsup hdef hascii hflat he
    rw [toCliArgs_single cmdName o hm]
    have hsv2 : pySortedE (v :: vs) = .ok sv := hflat ▸ hsv
    simp [singleOptArgs, hd, hsv2, hsd, hsup, hdef, hf, hcnt, chosenOptionName, hn,
      pyMinByLen, hflat, he]
  · intro hflat
    have hsv : pySortedE (valueDataOf o).flatten = .ok [] := by
      rw [hflat]; rfl
    have hsup : anySupplied ([] : List PyScalar) = false := rfl
    rw [toCliArgs_single cmdName o hm]
    simp [singleOptArgs, hd, hsv, hsd, hsup]

theorem C8_witness :
    pySortedE (valueDataOf ⟨.list ["-v", "--verbose"], .tuple [.str "abc"], osC6⟩).flatten
      = .ok [.str "abc"]
    ∧ pySortedE ([[.int 0]] : List (List PyScalar)).flatten = .ok [.int 0]
    ∧ anySupplied [.str "abc"] = true
    ∧ strCastEq [.str "abc"] [.int 0] = false
    ∧ asciiOnly "abc" = true
    ∧ pyInt (.str "abc") = .error .valueError
    ∧ cmdC8.toCliArgs false = .error .valueError :=
  ⟨by decide, by decide, by decide, by decide, by decide, by decide,
    (C8_amended_count_error "test" ⟨.list ["-v", "--verbose"], .tuple [.str "abc"], osC6⟩
        "-v" ["--verbose"] ⟨[[.int 0]]⟩ [.int 0] rfl rfl rfl rfl rfl (by decide)
        (by decide)).1
      [.str "abc"] (.str "abc") [] .valueError (by decide) (by decide) (by decide)
      (by decide) (fun s hs => by injection hs with h; subst h; decide)
      (by decide) (by decide)⟩

theorem cliTextToken_scalar (x : PyScalar) :
    cliTextToken (.scalar x) = if x = .sentinel then "???" else shlexQuote (pyScalarStr x) := by
  cases x <;> simp [cliTextToken, itemNotSupplied, pyItemEq, pyScalarEq, pyScalarNorm, pyItemStr]

/-- C9: for a non-flag, non-counting, non-repeatable option whose
multi-value tuple is partially filled (at least one sub-value is the
sentinel and at least one is not) and which is emitted (both sorts
succeed, some sorted value is non-sentinel, and the string casts of the
sorted values and the sorted sentinel-free defaults differ),
`to_cli_string` renders the flag and then each sub-value in order: every
sentinel sub-value renders as the distinct placeholder `???` (none is
dropped), and every other token is shell-quoted. -/
theorem C9_sentinel_rendering (cmdName : String) (o : UserOptionData) (n : String)
    (ns : List String) (t : List PyScalar) (d : MultiValueParamData)
    (sv sd : List PyScalar)
    (hm : o.option_schema.multiple = false)
    (hf : o.option_schema.is_flag = false)
    (hcnt : o.option_schema.counting = false)
    (hn : o.name = .list (n :: ns))
    (hv : o.value = .tuple t)
    (hd : o.option_schema.default = Option.some d)
    (hpart : (∃ x ∈ t, x = PyScalar.sentinel) ∧ (∃ x ∈ t, x ≠ PyScalar.sentinel))
    (hsv : pySortedE t = .ok sv)
    (hsd : pySortedE d.values.flatten = .ok sd)
    (hnosd : PyScalar.sentinel ∉ sd)
    (hsup : anySupplied sv = true)
    (hdef : strCastEq sv sd = false) :
    (UserCommandData.mk cmdName [o] [] Option.none).toCliStringTokens false
      = .ok (shlexQuote (maxByLen1 n ns)
          :: t.map (fun x => if x = PyScalar.sentinel then "???" else shlexQuote (pyScalarStr x))) := by
  have hargs := toCliArgs_single cmdName o hm
  have hvd : valueDataOf o = [t] := by
    simp [valueDataOf, MultiValueParamData.process_cli_option, hv]
  have hft : (valueDataOf o).flatten = t := by rw [hvd]; simp
  have hsv2 : pySortedE (valueDataOf o).flatten = .ok sv := by rw [hft]; exact hsv
  simp only [UserCommandData.toCliStringTokens, hargs]
  simp [singleOptArgs, hd, hsv2, hft, hsv, hsd, hsup, hdef, hf, hcnt, chosenOptionName,
    hn, pyMaxByLen, hvd, List.map_map, cliTextToken_scalar, Function.comp, pyScalarStr]

def osC9 : OptionSchema :=
  { name := ["--pair"], default := Option.some ⟨[[.str "y", .str "z"]]⟩ }

def uoC9 : UserOptionData := ⟨.list ["--pair"], .tuple [.str "x", .sentinel], osC9⟩

theorem C9_witness :
    ((∃ x ∈ [PyScalar.str "x", PyScalar.sentinel], x = PyScalar.sentinel)
      ∧ (∃ x ∈ [PyScalar.str "x", PyScalar.sentinel], x ≠ PyScalar.sentinel))
    ∧ pySortedE [PyScalar.str "x", PyScalar.sentinel] = .ok [.str "x", .sentinel]
    ∧ pySortedE ([[.str "y", .str "z"]] : List (List PyScalar)).flatten
        = .ok [.str "y", .str "z"]
    ∧ anySupplied [.str "x", .sentinel] = true
    ∧ strCastEq [.str "x", .sentinel] [.str "y", .str "z"] = false
    ∧ (UserCommandData.mk "test" [uoC9] [] Option.none).toCliStringTokens false
        = .ok ["--pair", "x", "???"] :=
  ⟨by decide, by decide, by decide, by decide, by decide,
    C9_sentinel_rendering "test" uoC9 "--pair" [] [.str "x", .sentinel]
      ⟨[[.str "y", .str "z"]]⟩ [.str "x", .sentinel] [.str "y", .str "z"]
      rfl rfl rfl rfl rfl rfl (by decide) (by decide) (by decide) (by decide)
      (by decide) (by decide)⟩

/-- The sorted string-cast multiset (as a sorted list of strings) of the
non-sentinel sub-values of a list of occurrence tuples — the comparison
key used by `_to_cli_args` for `multiple=True` options. -/
def multiSupplied (ts : List (List PyScalar)) : List String :=
  strSorted ((ts.flatten.filter (fun v => !(isNotSupplied v))).map pyScalarStr)

/-- The same key computed from a schema default. -/
def multiDefaults (d : MultiValueParamData) : List String := multiSupplied d.values

theorem pyIterAll_tuples : ∀ ts : List (List PyScalar),
    pyIterAll (ts.map PyVal.tuple) = .ok (ts.map (List.map PyItem.scalar))
  | [] => rfl
  | t :: ts => by
    simp [pyIterAll, pyIter, pyIterAll_tuples ts]

theorem flatten_map_scalar : ∀ L : List (List PyScalar),
    (L.map (List.map PyItem.scalar)).flatten = L.flatten.map PyItem.scalar
  | [] => rfl
  | t :: ts => by
    simp only [List.map_cons, List.flatten_cons, flatten_map_scalar ts, List.map_append]

theorem itemNotSupplied_scalar (a : PyScalar) :
    itemNotSupplied (.scalar a) = isNotSupplied a := rfl

theorem filter_map_scalar (l : List PyScalar) :
    (l.map PyItem.scalar).filter (fun v => !(itemNotSupplied v))
      = (l.filter (fun v => !(isNotSupplied v))).map PyItem.scalar := by
  induction l with
  | nil => rfl
  | cons x xs ih =>
    by_cases h : isNotSupplied x
    · have h2 : itemNotSupplied (.scalar x) = true := h
      simp [List.filter_cons, h, h2, ih]
    · have h2 : itemNotSupplied (.scalar x) = false := by
        simpa using h
      simp [List.filter_cons, h, h2, ih]

theorem any_str_token_true : ∀ l : List String,
    (l.any (fun s => !(itemNotSupplied (.scalar (.str s))))) = !l.isEmpty
  | [] => rfl
  | s :: ss => by simp [itemNotSupplied, pyItemEq, pyScalarEq, pyScalarNorm]

theorem all_map_scalar (t : List PyScalar) :
    (t.map PyItem.scalar).all itemNotSupplied = t.all isNotSupplied := by
  induction t with
  | nil => rfl
  | cons x xs ih => simp [ih]; rfl

theorem flatMap_map_scalar (ts : List (List PyScalar)) (n : String) :
    ((ts.map (List.map PyItem.scalar)).flatMap (fun t =>
        if t.all itemNotSupplied then [] else PyItem.scalar (.str n) :: t))
      = ts.flatMap (fun t =>
        if t.all isNotSupplied then [] else PyItem.scalar (.str n) :: t.map PyItem.scalar) := by
  induction ts with
  | nil => rfl
  | cons t ts ih =>
    simp only [List.map_cons, List.flatMap_cons, all_map_scalar, ih]

/-- The supplied-values key of `multiGroupArgs` on tuple-shaped
occurrence values is `multiSupplied`. -/
theorem suppliedKey_eq (ts : List (List PyScalar)) :
    strSorted ((((ts.map (List.map PyItem.scalar)).flatten).filter
        (fun v => !(itemNotSupplied v))).map pyItemStr) = multiSupplied ts := by
  rw [flatten_map_scalar, filter_map_scalar (ts.flatten), List.map_map]
  unfold multiSupplied
  refine congrArg strSorted (List.map_congr_left ?_)
  intro x hx
  rfl

/-- A `multiple=True` group whose supplied string multiset is nonempty and
differs from the default's emits, per occurrence tuple that has at least
one non-sentinel sub-value, the group key followed by the tuple's
elements. -/
theorem multiGroupArgs_emit (n : String) (os : OptionSchema) (ts : List (List PyScalar))
    (d : MultiValueParamData) (hd : os.default = Option.some d)
    (hne : multiSupplied ts ≠ []) (hdiff : multiSupplied ts ≠ multiDefaults d) :
    multiGroupArgs n (ts.map PyVal.tuple) os
      = .ok (ts.flatMap (fun t =>
          if t.all isNotSupplied then [] else PyItem.scalar (.str n) :: t.map PyItem.scalar)) := by
  have hki := pyIterAll_tuples ts
  have hkey := suppliedKey_eq ts
  have hdk : strSorted ((d.values.flatten.filter (fun v => !(isNotSupplied v))).map pyScalarStr)
      = multiDefaults d := rfl
  have hne2 : (multiSupplied ts).isEmpty = false := by
    cases h : multiSupplied ts with
    | nil => exact absurd h hne
    | cons a l => rfl
  have hd2 : decide (multiSupplied ts = multiDefaults d) = false := by
    simpa using hdiff
  simp only [multiGroupArgs, hd, hki, except_bind_ok, except_pure_eq, hkey, hdk,
    any_str_token_true, hne2, hd2, Bool.not_false, Bool.and_self, if_true,
    flatMap_map_scalar]

/-- A `multiple=True` group whose supplied string multiset is empty or
matches the default's contributes nothing. -/
theorem multiGroupArgs_skip (n : String) (os : OptionSchema) (ts : List (List PyScalar))
    (d : MultiValueParamData) (hd : os.default = Option.some d)
    (h : multiSupplied ts = [] ∨ multiSupplied ts = multiDefaults d) :
    multiGroupArgs n (ts.map PyVal.tuple) os = .ok [] := by
  have hki := pyIterAll_tuples ts
  have hkey := suppliedKey_eq ts
  have hdk : strSorted ((d.values.flatten.filter (fun v => !(isNotSupplied v))).map pyScalarStr)
      = multiDefaults d := rfl
  rcases h with h | h
  · simp only [multiGroupArgs, hd, hki, except_bind_ok, except_pure_eq, hkey, hdk,
      any_str_token_true, h, List.isEmpty_nil, Bool.not_true, Bool.false_and,
      Bool.and_self, if_false]
    rfl
  · have hd2 : decide (multiSupplied ts = multiDefaults d) = true := by
      simpa using h
    simp only [multiGroupArgs, hd, hki, except_bind_ok, except_pure_eq, hkey, hdk,
      any_str_token_true, hd2, Bool.not_true, Bool.and_false, if_false]
    rfl

/-- Occurrences of one `multiple=True` option (all sharing key `n` and
schema `os`) accumulate, in order, into the single group for `n`. -/
theorem buildGroups_one_key (n : String) (rest : List String) (os : OptionSchema)
    (hm : os.multiple = true) :
    ∀ (ts : List (List PyScalar)) (vs : List PyVal),
      buildGroups [⟨n, vs, os⟩]
          (ts.map (fun t => (⟨.list (n :: rest), .tuple t, os⟩ : UserOptionData)))
        = .ok [⟨n, vs ++ ts.map PyVal.tuple, os⟩]
  | [], vs => by simp [buildGroups]
  | t :: ts, vs => by
    have ih := buildGroups_one_key n rest os hm ts (vs ++ [PyVal.tuple t])
    simp only [List.map_cons, buildGroups, hm, if_true, PyName.stringName,
      except_bind_ok, addToGroups, if_pos rfl] at ih ⊢
    rw [ih]
    simp

/-- A command holding exactly the occurrences of one `multiple=True`
option reduces to that group's contribution. -/
theorem toCliArgs_multi_group (cmdName n : String) (rest : List String)
    (os : OptionSchema) (ts : List (List PyScalar)) (d : MultiValueParamData)
    (hm : os.multiple = true) (hd : os.default = Option.some d) :
    (UserCommandData.mk cmdName
        (ts.map (fun t => (⟨.list (n :: rest), .tuple t, os⟩ : UserOptionData))) []
        Option.none).toCliArgs false
      = multiGroupArgs n (ts.map PyVal.tuple) os := by
  have hsingles : singlesArgs
      (ts.map (fun t => (⟨.list (n :: rest), .tuple t, os⟩ : UserOptionData))) = .ok [] := by
    induction ts with
    | nil => rfl
    | cons t ts ih => simp [singlesArgs, hm, ih]
  cases ts with
  | nil =>
    have hskip := multiGroupArgs_skip n os [] d hd (Or.inl rfl)
    simp [UserCommandData.toCliArgs, UserCommandData.toCliArgsAux, commandLevelArgs,
      singlesArgs, buildGroups, groupsArgs, argumentsArgs]
    exact hskip.symm
  | cons t ts =>
    have hbg : buildGroups []
        ((t :: ts).map (fun t => (⟨.list (n :: rest), .tuple t, os⟩ : UserOptionData)))
        = .ok [⟨n, (t :: ts).map PyVal.tuple, os⟩] := by
      have ih := buildGroups_one_key n rest os hm ts [PyVal.tuple t]
      simp only [List.map_cons, buildGroups, hm, if_true, PyName.stringName,
        except_bind_ok, addToGroups] at ih ⊢
      rw [ih]
      simp
    simp only [List.map_cons] at hsingles hbg
    cases hmg : multiGroupArgs n (PyVal.tuple t :: ts.map PyVal.tuple) os with
    | ok out =>
      simp [UserCommandData.toCliArgs, UserCommandData.toCliArgsAux, commandLevelArgs,
        hsingles, hbg, groupsArgs, argumentsArgs, hmg]
    | error e =>
      simp [UserCommandData.toCliArgs, UserCommandData.toCliArgsAux, commandLevelArgs,
        hsingles, hbg, groupsArgs, argumentsArgs, hmg]

theorem any_not_all (l : List PyScalar) :
    l.any (fun v => !(isNotSupplied v)) = !(l.all isNotSupplied) := by
  induction l with
  | nil => rfl
  | cons x xs ih => by_cases h : isNotSupplied x <;> simp [h, ih]

theorem length_strInsert (a : String) : ∀ l : List String,
    (strInsert a l).length = l.length + 1
  | [] => rfl
  | b :: bs => by
    by_cases h : strLt b a <;> simp [strInsert, h, length_strInsert a bs]

theorem length_strSorted (l : List String) : (strSorted l).length = l.length := by
  induction l with
  | nil => rfl
  | cons a l ih => simp [strSorted, List.foldr_cons, length_strInsert] at *; omega

/-- If the supplied string multiset of a group is empty, every occurrence
tuple consists of sentinels only. -/
theorem multiSupplied_eq_nil {ts : List (List PyScalar)} (h : multiSupplied ts = []) :
    ∀ t ∈ ts, t.all isNotSupplied = true := by
  have hlen := congrArg List.length h
  rw [multiSupplied, length_strSorted, List.length_map] at hlen
  have hfil : ts.flatten.filter (fun v => !(isNotSupplied v)) = [] :=
    List.eq_nil_of_length_eq_zero hlen
  intro t ht
  rw [List.all_eq_true]
  intro v hv
  by_contra hns
  have hmem : v ∈ ts.flatten.filter (fun v => !(isNotSupplied v)) := by
    rw [List.mem_filter]
    exact ⟨List.mem_flatten.mpr ⟨t, ht, hv⟩, by simp [hns]⟩
  rw [hfil] at hmem
  exact absurd hmem (List.not_mem_nil v)

/-- Token count of a group's emission: one occurrence of the flag token
per tuple that has at least one non-sentinel sub-value (when the flag
string does not occur among the sub-values). -/
theorem count_emission (n : String) : ∀ ts : List (List PyScalar),
    (∀ t ∈ ts, PyScalar.str n ∉ t) →
    (ts.flatMap (fun t =>
        if t.all isNotSupplied then [] else PyItem.scalar (.str n) :: t.map PyItem.scalar)).count
          (PyItem.scalar (.str n))
      = (ts.filter (fun t => t.any (fun v => !(isNotSupplied v)))).length
  | [], _ => rfl
  | t :: ts, hnc => by
    have ih := count_emission n ts (fun u hu => hnc u (List.mem_cons_of_mem t hu))
    have hnt := hnc t (List.mem_cons_self t ts)
    by_cases h : t.all isNotSupplied
    · have hpred : (t.any fun v => !(isNotSupplied v)) = false := by
        rw [any_not_all, h]
        rfl
      rw [List.flatMap_cons, if_pos h, List.nil_append, ih, List.filter_cons, hpred]
      simp
    · have hcount0 : (t.map PyItem.scalar).count (PyItem.scalar (.str n)) = 0 := by
        rw [List.count_eq_zero]
        intro hmem
        rcases List.mem_map.mp hmem with ⟨v, hv, hveq⟩
        cases hveq
        exact hnt hv
      have h2 : t.all isNotSupplied = false := by simpa using h
      have hpred : (t.any fun v => !(isNotSupplied v)) = true := by
        rw [any_not_all, h2]
        rfl
      rw [List.flatMap_cons, if_neg h, List.cons_append, List.count_cons_self,
        List.count_append, hcount0, ih, List.filter_cons, hpred]
      simp

/-- C5: for a `multiple=True` option, when the sorted string-cast multiset
of the supplied non-sentinel values differs from that of the default's
non-sentinel values, the flag token occurs in the `to_cli_args` output
exactly once per supplied occurrence tuple containing at least one
non-sentinel sub-value (assuming the flag string itself does not occur
among the sub-values); when the two multisets coincide, the option does
not appear at all. -/
theorem C5_multiplicity (cmdName n : String) (rest : List String) (os : OptionSchema)
    (ts : List (List PyScalar)) (d : MultiValueParamData)
    (hm : os.multiple = true) (hd : os.default = Option.some d)
    (hnc : ∀ t ∈ ts, PyScalar.str n ∉ t) :
    (multiSupplied ts ≠ multiDefaults d →
      (fun out => out.count (PyItem.scalar (.str n))) <$>
          (UserCommandData.mk cmdName
            (ts.map (fun t => (⟨.list (n :: rest), .tuple t, os⟩ : UserOptionData))) []
            Option.none).toCliArgs false
        = .ok ((ts.filter (fun t => t.any (fun v => !(isNotSupplied v)))).length))
    ∧ (multiSupplied ts = multiDefaults d →
      (UserCommandData.mk cmdName
          (ts.map (fun t => (⟨.list (n :: rest), .tuple t, os⟩ : UserOptionData))) []
          Option.none).toCliArgs false = .ok []) := by
  rw [toCliArgs_multi_group cmdName n rest os ts d hm hd]
  constructor
  · intro hdiff
    by_cases hne : multiSupplied ts = []
    · rw [multiGroupArgs_skip n os ts d hd (Or.inl hne)]
      have hall := multiSupplied_eq_nil hne
      have hfil : ts.filter (fun t => t.any (fun v => !(isNotSupplied v))) = [] := by
        rw [List.filter_eq_nil_iff]
        intro t ht
        rw [any_not_all, hall t ht]
        simp
      rw [hfil]
      rfl
    · rw [multiGroupArgs_emit n os ts d hd hne hdiff, except_map_ok]
      exact congrArg Except.ok (count_emission n ts hnc)
  · intro heq
    exact multiGroupArgs_skip n os ts d hd (Or.inr heq)

def osC5 : OptionSchema :=
  { name := ["-x", "--xlong"], multiple := true, default := Option.some ⟨[]⟩ }

theorem C5_witness :
    multiSupplied [[PyScalar.int 1], [PyScalar.sentinel]] ≠ multiDefaults ⟨[]⟩
    ∧ (∀ t ∈ [[PyScalar.int 1], [PyScalar.sentinel]], PyScalar.str "-x" ∉ t)
    ∧ (fun out => out.count (PyItem.scalar (.str "-x"))) <$>
        (UserCommandData.mk "test"
          ([[PyScalar.int 1], [PyScalar.sentinel]].map
            (fun t => (⟨.list ("-x" :: ["--xlong"]), .tuple t, osC5⟩ : UserOptionData))) []
          Option.none).toCliArgs false
      = .ok 1 :=
  ⟨by decide, by decide,
    (C5_multiplicity "test" "-x" ["--xlong"] osC5 [[PyScalar.int 1], [PyScalar.sentinel]]
        ⟨[]⟩ rfl rfl (by decide)).1 (by decide)⟩

/-- C10: for a `multiple=True` option whose occurrences are emitted, every
occurrence uses the first declared spelling (the `string_name`, i.e.
`name[0]`) as its flag token, whatever longer spellings follow in the name
list — the longest-spelling preference applies only to the
single-occurrence branch. -/
theorem C10_multiple_first_spelling (cmdName n : String) (rest : List String)
    (os : OptionSchema) (ts : List (List PyScalar)) (d : MultiValueParamData)
    (hm : os.multiple = true) (hd : os.default = Option.some d)
    (hne : multiSupplied ts ≠ []) (hdiff : multiSupplied ts ≠ multiDefaults d) :
    (UserCommandData.mk cmdName
        (ts.map (fun t => (⟨.list (n :: rest), .tuple t, os⟩ : UserOptionData))) []
        Option.none).toCliArgs false
      = .ok (ts.flatMap (fun t =>
          if t.all isNotSupplied then [] else PyItem.scalar (.str n) :: t.map PyItem.scalar)) := by
  rw [toCliArgs_multi_group cmdName n rest os ts d hm hd]
  exact multiGroupArgs_emit n os ts d hd hne hdiff

theorem C10_witness :
    multiSupplied [[PyScalar.int 1], [PyScalar.int 2]] ≠ []
    ∧ multiSupplied [[PyScalar.int 1], [PyScalar.int 2]] ≠ multiDefaults ⟨[]⟩
    ∧ ("-x" : String).length < ("--xlong" : String).length
    ∧ (UserCommandData.mk "test"
        ([[PyScalar.int 1], [PyScalar.int 2]].map
          (fun t => (⟨.list ("-x" :: ["--xlong"]), .tuple t, osC5⟩ : UserOptionData))) []
        Option.none).toCliArgs false
      = .ok [PyItem.scalar (.str "-x"), PyItem.scalar (.int 1),
             PyItem.scalar (.str "-x"), PyItem.scalar (.int 2)] :=
  ⟨by decide, by decide, by decide,
    C10_multiple_first_spelling "test" "-x" ["--xlong"] osC5
      [[PyScalar.int 1], [PyScalar.int 2]] ⟨[]⟩ rfl rfl (by decide) (by decide)⟩


theorem optBlock_none (os : OptionSchema) (acc : List UserOptionData)
    (h : os.default = Option.none) : optBlock os acc = acc := by
  unfold optBlock
  rw [h]

theorem optBlock_some (os : OptionSchema) (acc : List UserOptionData)
    (d : MultiValueParamData) (h : os.default = Option.some d) :
    optBlock os acc = if acc.any (fun o => pyNameEqList o.name os.name) then acc
      else acc ++ d.values.map (fun t => ⟨.list os.name, .tuple t, os⟩) := by
  unfold optBlock
  rw [h]

theorem optBlock_mono (os : OptionSchema) (acc : List UserOptionData) :
    ∃ suf, optBlock os acc = acc ++ suf := by
  cases hdef : os.default with
  | none => exact ⟨[], by rw [optBlock_none os acc hdef, List.append_nil]⟩
  | some d =>
    rw [optBlock_some os acc d hdef]
    by_cases hb : acc.any (fun o => pyNameEqList o.name os.name)
    · exact ⟨[], by rw [if_pos hb, List.append_nil]⟩
    · exact ⟨d.values.map (fun t => ⟨.list os.name, .tuple t, os⟩), by rw [if_neg hb]⟩

/-- `fill_defaults` only appends option entries. -/
theorem fillDefaultsOptions_mono (sos : List OptionSchema) : ∀ acc,
    ∃ suf, fillDefaultsOptions sos acc = acc ++ suf := by
  induction sos with
  | nil => exact fun acc => ⟨[], by simp [fillDefaultsOptions]⟩
  | cons os rest ih =>
    intro acc
    rcases optBlock_mono os acc with ⟨b, hb⟩
    rcases ih (optBlock os acc) with ⟨suf, hsuf⟩
    exact ⟨b ++ suf, by rw [fillDefaultsOptions, hsuf, hb, List.append_assoc]⟩

theorem mem_fillDefaultsOptions {o : UserOptionData} {acc : List UserOptionData}
    (sos : List OptionSchema) (h : o ∈ acc) : o ∈ fillDefaultsOptions sos acc := by
  rcases fillDefaultsOptions_mono sos acc with ⟨suf, hsuf⟩
  rw [hsuf]
  exact List.mem_append_left suf h

/-- After `fill_defaults`, every option schema with a nonempty default has
an entry of its name. -/
theorem fillDefaultsOptions_covers (sos : List OptionSchema) : ∀ acc,
    ∀ os ∈ sos, ∀ d, os.default = Option.some d → d.values ≠ [] →
      ∃ o ∈ fillDefaultsOptions sos acc, pyNameEqList o.name os.name = true := by
  induction sos with
  | nil => intro acc os h; exact absurd h (List.not_mem_nil os)
  | cons os0 rest ih =>
    intro acc os hmem d hd hne
    rcases List.mem_cons.mp hmem with heq | hmem2
    · subst heq
      rw [fillDefaultsOptions]
      by_cases hb : acc.any (fun o => pyNameEqList o.name os.name)
      · rcases List.any_eq_true.mp hb with ⟨o, ho, hoeq⟩
        refine ⟨o, mem_fillDefaultsOptions rest ?_, hoeq⟩
        rw [optBlock_some os acc d hd, if_pos hb]
        exact ho
      · cases hv : d.values with
        | nil => exact absurd hv hne
        | cons t ts =>
          refine ⟨⟨.list os.name, .tuple t, os⟩, mem_fillDefaultsOptions rest ?_,
            by simp [pyNameEqList]⟩
          rw [optBlock_some os acc d hd, if_neg hb, hv]
          exact List.mem_append_right acc (by simp)
    · rw [fillDefaultsOptions]
      exact ih (optBlock os0 acc) os hmem2 d hd hne

/-- A `fill_defaults` pass over options is the identity when every schema
that would append something already has an entry of its name. -/
theorem fillDefaultsOptions_stable (sos : List OptionSchema) : ∀ L,
    (∀ os ∈ sos, ∀ d, os.default = Option.some d → d.values ≠ [] →
      ∃ o ∈ L, pyNameEqList o.name os.name = true) →
    fillDefaultsOptions sos L = L := by
  induction sos with
  | nil => intro L _; rfl
  | cons os rest ih =>
    intro L hcov
    have hblock : optBlock os L = L := by
      cases hdef : os.default with
      | none => exact optBlock_none os L hdef
      | some d =>
        rw [optBlock_some os L d hdef]
        by_cases hb : L.any (fun o => pyNameEqList o.name os.name)
        · rw [if_pos hb]
        · rw [if_neg hb]
          cases hv : d.values with
          | nil => simp
          | cons t ts =>
            rcases hcov os (List.mem_cons_self os rest) d hdef (by rw [hv]; simp)
              with ⟨o, ho, hoeq⟩
            exact absurd (List.any_eq_true.mpr ⟨o, ho, hoeq⟩) hb
    rw [fillDefaultsOptions, hblock]
    exact ih L (fun o ho => hcov o (List.mem_cons_of_mem os ho))

/-- Filling option defaults twice equals filling them once. -/
theorem fillDefaultsOptions_idem (sos : List OptionSchema) (acc : List UserOptionData) :
    fillDefaultsOptions sos (fillDefaultsOptions sos acc) = fillDefaultsOptions sos acc :=
  fillDefaultsOptions_stable sos (fillDefaultsOptions sos acc)
    (fun os hos d hd hne => fillDefaultsOptions_covers sos acc os hos d hd hne)

theorem argBlock_none (a : ArgumentSchema) (args : List UserArgumentData)
    (h : a.default = Option.none) : argBlock a args = args := by
  unfold argBlock
  rw [h]

theorem argBlock_some (a : ArgumentSchema) (args : List UserArgumentData)
    (d : MultiValueParamData) (h : a.default = Option.some d) :
    argBlock a args = if args.any (fun u => u.name == a.name) then args
      else args ++ [⟨a.name, .list (d.values.map .tuple), a⟩] := by
  unfold argBlock
  rw [h]

theorem argBlock_mono (a : ArgumentSchema) (args : List UserArgumentData) :
    ∃ suf, argBlock a args = args ++ suf := by
  cases hdef : a.default with
  | none => exact ⟨[], by rw [argBlock_none a args hdef, List.append_nil]⟩
  | some d =>
    rw [argBlock_some a args d hdef]
    by_cases hb : args.any (fun u => u.name == a.name)
    · exact ⟨[], by rw [if_pos hb, List.append_nil]⟩
    · exact ⟨[⟨a.name, .list (d.values.map .tuple), a⟩], by rw [if_neg hb]⟩

theorem fillDefaultsArguments_mono (sas : List ArgumentSchema) : ∀ args,
    ∃ suf, fillDefaultsArguments sas args = args ++ suf := by
  induction sas with
  | nil => exact fun args => ⟨[], by simp [fillDefaultsArguments]⟩
  | cons a rest ih =>
    intro args
    rcases argBlock_mono a args with ⟨b, hb⟩
    rcases ih (argBlock a args) with ⟨suf, hsuf⟩
    exact ⟨b ++ suf, by rw [fillDefaultsArguments, hsuf, hb, List.append_assoc]⟩

theorem mem_fillDefaultsArguments {u : UserArgumentData} {args : List UserArgumentData}
    (sas : List ArgumentSchema) (h : u ∈ args) : u ∈ fillDefaultsArguments sas args := by
  rcases fillDefaultsArguments_mono sas args with ⟨suf, hsuf⟩
  rw [hsuf]
  exact List.mem_append_left suf h

theorem fillDefaultsArguments_covers (sas : List ArgumentSchema) : ∀ args,
    ∀ a ∈ sas, ∀ d, a.default = Option.some d →
      ∃ u ∈ fillDefaultsArguments sas args, (u.name == a.name) = true := by
  induction sas with
  | nil => intro args a h; exact absurd h (List.not_mem_nil a)
  | cons a0 rest ih =>
    intro args a hmem d hd
    rcases List.mem_cons.mp hmem with heq | hmem2
    · subst heq
      rw [fillDefaultsArguments]
      by_cases hb : args.any (fun u => u.name == a.name)
      · rcases List.any_eq_true.mp hb with ⟨u, hu, hueq⟩
        refine ⟨u, mem_fillDefaultsArguments rest ?_, hueq⟩
        rw [argBlock_some a args d hd, if_pos hb]
        exact hu
      · refine ⟨⟨a.name, .list (d.values.map .tuple), a⟩,
          mem_fillDefaultsArguments rest ?_, by simp⟩
        rw [argBlock_some a args d hd, if_neg hb]
        exact List.mem_append_right args (by simp)
    · rw [fillDefaultsArguments]
      exact ih (argBlock a0 args) a hmem2 d hd

theorem fillDefaultsArguments_stable (sas : List ArgumentSchema) : ∀ L,
    (∀ a ∈ sas, ∀ d, a.default = Option.some d →
      ∃ u ∈ L, (u.name == a.name) = true) →
    fillDefaultsArguments sas L = L := by
  induction sas with
  | nil => intro L _; rfl
  | cons a rest ih =>
    intro L hcov
    have hblock : argBlock a L = L := by
      cases hdef : a.default with
      | none => exact argBlock_none a L hdef
      | some d =>
        rw [argBlock_some a L d hdef]
        rcases hcov a (List.mem_cons_self a rest) d hdef with ⟨u, hu, hueq⟩
        rw [if_pos (List.any_eq_true.mpr ⟨u, hu, hueq⟩)]
    rw [fillDefaultsArguments, hblock]
    exact ih L (fun x hx => hcov x (List.mem_cons_of_mem a hx))

theorem fillDefaultsArguments_idem (sas : List ArgumentSchema) (args : List UserArgumentData) :
    fillDefaultsArguments sas (fillDefaultsArguments sas args) = fillDefaultsArguments sas args :=
  fillDefaultsArguments_stable sas (fillDefaultsArguments sas args)
    (fun a ha d hd => fillDefaultsArguments_covers sas args a ha d hd)

/-- `fill_defaults` never changes the command's name. -/
theorem fillDefaults_name (u : UserCommandData) (cs : CommandSchema) :
    (u.fillDefaults cs).name = u.name := by
  match u with
  | .mk nm opts args Option.none => rfl
  | .mk nm opts args (Option.some s) => rfl

/-- C4: calling `fill_defaults` twice with the same schema leaves the
command data exactly as after calling it once (options list, arguments
list, and the subcommand's state, recursively). -/
theorem C4_fill_defaults_idempotent : ∀ (u : UserCommandData) (cs : CommandSchema),
    (u.fillDefaults cs).fillDefaults cs = u.fillDefaults cs
  | .mk nm opts args Option.none, cs => by
    simp only [UserCommandData.fillDefaults]
    rw [fillDefaultsOptions_idem, fillDefaultsArguments_idem]
  | .mk nm opts args (Option.some s), cs => by
    simp only [UserCommandData.fillDefaults]
    cases hfind : cs.subcommands.find? (fun c => c.name == s.name) with
    | none =>
      simp only [UserCommandData.fillDefaults, hfind]
      rw [fillDefaultsOptions_idem, fillDefaultsArguments_idem]
    | some ss =>
      have hname : (s.fillDefaults ss).name = s.name := fillDefaults_name s ss
      have hfind2 : cs.subcommands.find? (fun c => c.name == (s.fillDefaults ss).name)
          = Option.some ss := by
        rw [hname]
        exact hfind
      simp only [UserCommandData.fillDefaults, hfind, hfind2,
        fillDefaultsOptions_idem, fillDefaultsArguments_idem,
        C4_fill_defaults_idempotent s ss]

/-- A list of options each of which is either `multiple` (contributing no
inline tokens) or suppressed contributes no inline tokens at all. -/
theorem singlesArgs_ok_nil : ∀ l : List UserOptionData,
    (∀ e ∈ l, e.option_schema.multiple = false → singleOptArgs e = .ok []) →
    singlesArgs l = .ok []
  | [], _ => rfl
  | o :: rest, h => by
    have ih := singlesArgs_ok_nil rest (fun e he => h e (List.mem_cons_of_mem o he))
    rw [singlesArgs]
    by_cases hm : o.option_schema.multiple
    · simp [hm, ih]
    · have h0 := h o (List.mem_cons_self o rest) (by simpa using hm)
      simp [hm, h0, ih]

theorem buildGroups_append (l1 l2 : List UserOptionData) : ∀ acc,
    buildGroups acc (l1 ++ l2) = (buildGroups acc l1) >>= fun g => buildGroups g l2 := by
  induction l1 with
  | nil => intro acc; rfl
  | cons o rest ih =>
    intro acc
    rw [List.cons_append, buildGroups, buildGroups]
    by_cases hm : o.option_schema.multiple
    · simp only [hm, if_true]
      cases hk : o.name.stringName with
      | ok k => simp [ih]
      | error e => simp
    · simp only [hm, if_false]
      exact ih acc

theorem buildGroups_all_single : ∀ (l : List UserOptionData) (acc : List MultiGroup),
    (∀ e ∈ l, e.option_schema.multiple = false) → buildGroups acc l = .ok acc
  | [], acc, _ => rfl
  | o :: rest, acc, h => by
    have hm := h o (List.mem_cons_self o rest)
    rw [buildGroups]
    simp only [hm, Bool.false_eq_true, if_false]
    exact buildGroups_all_single rest acc (fun e he => h e (List.mem_cons_of_mem o he))

theorem addToGroups_fresh (k : String) (v : PyVal) (os : OptionSchema) :
    ∀ G : List MultiGroup, (∀ g ∈ G, g.key ≠ k) →
      addToGroups G k v os = G ++ [⟨k, [v], os⟩]
  | [], _ => rfl
  | g :: G, h => by
    have hg := h g (List.mem_cons_self g G)
    rw [addToGroups, if_neg hg]
    rw [addToGroups_fresh k v os G (fun x hx => h x (List.mem_cons_of_mem g hx))]
    rfl

theorem addToGroups_last (k : String) (v : PyVal) (os os0 : OptionSchema)
    (vs : List PyVal) : ∀ G : List MultiGroup, (∀ g ∈ G, g.key ≠ k) →
      addToGroups (G ++ [⟨k, vs, os0⟩]) k v os = G ++ [⟨k, vs ++ [v], os⟩]
  | [], _ => by
    simp [addToGroups]
  | g :: G, h => by
    have hg := h g (List.mem_cons_self g G)
    rw [List.cons_append, addToGroups, if_neg hg]
    rw [addToGroups_last k v os os0 vs G (fun x hx => h x (List.mem_cons_of_mem g hx))]
    rfl

theorem buildGroups_block (n : String) (rest : List String) (os : OptionSchema)
    (hm : os.multiple = true) :
    ∀ (ts : List (List PyScalar)) (G : List MultiGroup) (vs : List PyVal),
      (∀ g ∈ G, g.key ≠ n) →
      buildGroups (G ++ [⟨n, vs, os⟩])
          (ts.map (fun t => (⟨.list (n :: rest), .tuple t, os⟩ : UserOptionData)))
        = .ok (G ++ [⟨n, vs ++ ts.map PyVal.tuple, os⟩])
  | [], G, vs, _ => by simp [buildGroups]
  | t :: ts, G, vs, h => by
    rw [List.map_cons, buildGroups]
    simp only [hm, if_true, PyName.stringName, except_bind_ok]
    rw [addToGroups_last n (PyVal.tuple t) os os vs G h]
    rw [buildGroups_block n rest os hm ts G (vs ++ [PyVal.tuple t]) h]
    simp

theorem buildGroups_whole_block (n : String) (rest : List String) (os : OptionSchema)
    (hm : os.multiple = true) (t : List PyScalar) (ts : List (List PyScalar))
    (G : List MultiGroup) (h : ∀ g ∈ G, g.key ≠ n) :
    buildGroups G
        ((t :: ts).map (fun t => (⟨.list (n :: rest), .tuple t, os⟩ : UserOptionData)))
      = .ok (G ++ [⟨n, (t :: ts).map PyVal.tuple, os⟩]) := by
  rw [List.map_cons, buildGroups]
  simp only [hm, if_true, PyName.stringName, except_bind_ok]
  rw [addToGroups_fresh n (PyVal.tuple t) os G h]
  rw [buildGroups_block n rest os hm ts G [PyVal.tuple t] h]
  simp

theorem groupsArgs_append (G1 G2 : List MultiGroup) :
    groupsArgs (G1 ++ G2) = (groupsArgs G1) >>= fun a => (groupsArgs G2) >>= fun b =>
      pure (a ++ b) := by
  induction G1 with
  | nil =>
    rw [List.nil_append, groupsArgs]
    cases h : groupsArgs G2 with
    | ok b => simp
    | error e => simp
  | cons g G ih =>
    rw [List.cons_append, groupsArgs, groupsArgs, ih]
    cases h1 : multiGroupArgs g.key g.values g.schema with
    | ok a =>
      cases h2 : groupsArgs G with
      | ok b =>
        cases h3 : groupsArgs G2 with
        | ok c => simp [List.append_assoc]
        | error e => simp
      | error e => simp
    | error e => simp

/-- An option entry synthesized by `fill_defaults` from a single sortable
tuple default is suppressed: its value is exactly the default. -/
theorem singleOptArgs_default_entry (nm : PyName) (os : OptionSchema)
    (d : MultiValueParamData) (t : List PyScalar)
    (hd : os.default = Option.some d) (hv : d.values = [t])
    (hcomp : allComparable t = true) :
    singleOptArgs ⟨nm, .tuple t, os⟩ = .ok [] := by
  have hft : (valueDataOf ⟨nm, .tuple t, os⟩).flatten = t := by
    simp [valueDataOf, MultiValueParamData.process_cli_option]
  have hsv : pySortedE (valueDataOf ⟨nm, .tuple t, os⟩).flatten = .ok (pySorted t) := by
    rw [hft, pySortedE, if_pos hcomp]
  have hsd : pySortedE d.values.flatten = .ok (pySorted t) := by
    rw [hv]
    simp only [List.flatten_cons, List.flatten_nil, List.append_nil]
    rw [pySortedE, if_pos hcomp]
  exact singleOptArgs_suppressed hd hsv hsd (Or.inl rfl)

/-- The invariant carried over the option half of `fill_defaults`: the
accumulated entries stay suppressed inline and their groups stay
suppressed, provided non-multiple schemas have at-most-one-tuple defaults
and multiple schemas have nonempty, pairwise-distinct first spellings. -/
theorem fillOpts_good (sos : List OptionSchema) : ∀ (L : List UserOptionData)
    (G : List MultiGroup),
    (∀ os ∈ sos, os.multiple = false → ∀ d, os.default = Option.some d →
      d.values = [] ∨ ∃ t, d.values = [t] ∧ allComparable t = true) →
    (∀ os ∈ sos, os.multiple = true → os.name ≠ []) →
    ((sos.filter (fun os => os.multiple)).Pairwise
      (fun a b => a.name.headD "" ≠ b.name.headD "")) →
    (∀ e ∈ L, e.option_schema.multiple = false → singleOptArgs e = .ok []) →
    buildGroups [] L = .ok G →
    groupsArgs G = .ok [] →
    (∀ os ∈ sos, os.multiple = true → ∀ g ∈ G, g.key ≠ os.name.headD "") →
    (∀ e ∈ fillDefaultsOptions sos L, e.option_schema.multiple = false →
      singleOptArgs e = .ok [])
    ∧ ∃ G2, buildGroups [] (fillDefaultsOptions sos L) = .ok G2
        ∧ groupsArgs G2 = .ok [] := by
  induction sos with
  | nil =>
    intro L G _ _ _ hL hG hGok _
    exact ⟨hL, G, hG, hGok⟩
  | cons os rest ih =>
    intro L G h1 h2 h3 hL hG hGok hfresh
    rw [fillDefaultsOptions]
    have h1r : ∀ o ∈ rest, o.multiple = false → ∀ d, o.default = Option.some d →
        d.values = [] ∨ ∃ t, d.values = [t] ∧ allComparable t = true :=
      fun o ho => h1 o (List.mem_cons_of_mem os ho)
    have h2r : ∀ o ∈ rest, o.multiple = true → o.name ≠ [] :=
      fun o ho => h2 o (List.mem_cons_of_mem os ho)
    have h3r : (rest.filter (fun o => o.multiple)).Pairwise
        (fun a b => a.name.headD "" ≠ b.name.headD "") := by
      by_cases hm : os.multiple = true
      · rw [List.filter_cons_of_pos hm] at h3
        exact (List.pairwise_cons.mp h3).2
      · rwa [List.filter_cons_of_neg hm] at h3
    have hfreshr : ∀ o ∈ rest, o.multiple = true → ∀ g ∈ G, g.key ≠ o.name.headD "" :=
      fun o ho homul g hg => hfresh o (List.mem_cons_of_mem os ho) homul g hg
    cases hdef : os.default with
    | none =>
      rw [optBlock_none os L hdef]
      exact ih L G h1r h2r h3r hL hG hGok hfreshr
    | some d =>
      rw [optBlock_some os L d hdef]
      by_cases hb : L.any (fun o => pyNameEqList o.name os.name)
      · rw [if_pos hb]
        exact ih L G h1r h2r h3r hL hG hGok hfreshr
      · rw [if_neg hb]
        by_cases hm : os.multiple = true
        · -- multiple option: entries go to a fresh group that matches its
          -- own default, hence is suppressed
          cases hname : os.name with
          | nil => exact absurd hname (h2 os (List.mem_cons_self os rest) hm)
          | cons n nrest =>
            cases hv : d.values with
            | nil =>
              rw [List.map_nil, List.append_nil]
              exact ih L G h1r h2r h3r hL hG hGok hfreshr
            | cons t ts =>
              have hLblock : ∀ e ∈ L ++ (t :: ts).map
                  (fun t => (⟨.list (n :: nrest), .tuple t, os⟩ : UserOptionData)),
                  e.option_schema.multiple = false → singleOptArgs e = .ok [] := by
                intro e he hemul
                rcases List.mem_append.mp he with he | he
                · exact hL e he hemul
                · rcases List.mem_map.mp he with ⟨u, hu, rfl⟩
                  rw [hemul] at hm
                  exact absurd hm Bool.false_ne_true
              have hfreshos : ∀ g ∈ G, g.key ≠ n := by
                intro g hg
                have h5 := hfresh os (List.mem_cons_self os rest) hm g hg
                rwa [hname] at h5
              have hGnew : buildGroups []
                  (L ++ (t :: ts).map (fun t => (⟨.list (n :: nrest), .tuple t, os⟩ :
                    UserOptionData)))
                  = .ok (G ++ [⟨n, (t :: ts).map PyVal.tuple, os⟩]) := by
                rw [buildGroups_append, hG, except_bind_ok]
                exact buildGroups_whole_block n nrest os hm t ts G hfreshos
              have hGokNew : groupsArgs (G ++ [⟨n, (t :: ts).map PyVal.tuple, os⟩])
                  = .ok [] := by
                rw [groupsArgs_append, hGok, except_bind_ok]
                have hskip : multiGroupArgs n ((t :: ts).map PyVal.tuple) os = .ok [] :=
                  multiGroupArgs_skip n os (t :: ts) d hdef
                    (Or.inr (by rw [multiDefaults, hv]))
                rw [groupsArgs]
                simp only [List.map_cons] at hskip
                simp [hskip, groupsArgs]
              have hfreshNew : ∀ o ∈ rest, o.multiple = true →
                  ∀ g ∈ G ++ [⟨n, (t :: ts).map PyVal.tuple, os⟩],
                    g.key ≠ o.name.headD "" := by
                intro o ho homul g hg
                rcases List.mem_append.mp hg with hg | hg
                · exact hfreshr o ho homul g hg
                · rcases List.mem_singleton.mp hg with rfl
                  rw [List.filter_cons_of_pos hm] at h3
                  have hne := (List.pairwise_cons.mp h3).1 o
                    (List.mem_filter.mpr ⟨ho, homul⟩)
                  simpa [hname] using hne
              exact ih _ _ h1r h2r h3r hLblock hGnew hGokNew hfreshNew
        · -- non-multiple option: at most one default tuple, entry suppressed
          have hm2 : os.multiple = false := by
            cases hmm : os.multiple with
            | false => rfl
            | true => exact absurd hmm hm
          have hshape := h1 os (List.mem_cons_self os rest) hm2 d hdef
          have hLblock : ∀ e ∈ L ++ d.values.map
              (fun t => (⟨.list os.name, .tuple t, os⟩ : UserOptionData)),
              e.option_schema.multiple = false → singleOptArgs e = .ok [] := by
            intro e he hemul
            rcases List.mem_append.mp he with he | he
            · exact hL e he hemul
            · rcases List.mem_map.mp he with ⟨t, ht, rfl⟩
              rcases hshape with hv | ⟨t0, hv, hcomp⟩
              · rw [hv] at ht; exact absurd ht (List.not_mem_nil t)
              · rw [hv] at ht
                rcases List.mem_singleton.mp ht with rfl
                exact singleOptArgs_default_entry (.list os.name) os d _ hdef hv hcomp
          have hGsame : buildGroups []
              (L ++ d.values.map (fun t => (⟨.list os.name, .tuple t, os⟩ : UserOptionData)))
              = .ok G := by
            rw [buildGroups_append, hG, except_bind_ok]
            apply buildGroups_all_single
            intro e he
            rcases List.mem_map.mp he with ⟨t, ht, rfl⟩
            exact hm2
          exact ih _ G h1r h2r h3r hLblock hGsame hGok hfreshr

/-- With pairwise-distinct argument names (and none already present),
`fill_defaults` appends exactly one entry per argument with a non-`None`
default, holding the whole default tuple list as a Python list value. -/
theorem fillArgs_char (sas : List ArgumentSchema) : ∀ acc,
    (∀ a ∈ sas, ∀ u ∈ acc, u.name ≠ a.name) →
    sas.Pairwise (fun a b => a.name ≠ b.name) →
    fillDefaultsArguments sas acc
      = acc ++ sas.flatMap (fun a =>
          match a.default with
          | Option.none => []
          | Option.some d => [⟨a.name, .list (d.values.map .tuple), a⟩]) := by
  induction sas with
  | nil => intro acc _ _; simp [fillDefaultsArguments]
  | cons a rest ih =>
    intro acc hnames hpw
    rw [fillDefaultsArguments, List.flatMap_cons]
    cases hdef : a.default with
    | none =>
      rw [argBlock_none a acc hdef]
      rw [ih acc (fun x hx u hu => hnames x (List.mem_cons_of_mem a hx) u hu)
        (List.pairwise_cons.mp hpw).2]
      simp
    | some d =>
      have hnoblock : acc.any (fun u => u.name == a.name) = false := by
        rw [List.any_eq_false]
        intro u hu
        simpa using hnames a (List.mem_cons_self a rest) u hu
      rw [argBlock_some a acc d hdef, hnoblock]
      simp only [Bool.false_eq_true, if_false]
      have hnames2 : ∀ x ∈ rest, ∀ u ∈ acc ++ [⟨a.name, .list (d.values.map .tuple), a⟩],
          u.name ≠ x.name := by
        intro x hx u hu
        rcases List.mem_append.mp hu with hu | hu
        · exact hnames x (List.mem_cons_of_mem a hx) u hu
        · rcases List.mem_singleton.mp hu with rfl
          exact (List.pairwise_cons.mp hpw).1 x hx
      rw [ih (acc ++ [(⟨a.name, .list (d.values.map .tuple), a⟩ : UserArgumentData)]) hnames2
        (List.pairwise_cons.mp hpw).2]
      simp

/-- The argument loop on `fill_defaults`-created entries emits exactly the
default tuples, each as one raw element. -/
theorem argumentsArgs_default_entries (sas : List ArgumentSchema) :
    argumentsArgs (sas.flatMap (fun a =>
        match a.default with
        | Option.none => []
        | Option.some d => [⟨a.name, .list (d.values.map .tuple), a⟩]))
      = .ok (sas.flatMap (fun a =>
          match a.default with
          | Option.none => []
          | Option.some d => d.values.map PyItem.tuple)) := by
  induction sas with
  | nil => rfl
  | cons a rest ih =>
    rw [List.flatMap_cons, List.flatMap_cons]
    cases hdef : a.default with
    | none =>
      simp only [List.nil_append]
      exact ih
    | some d =>
      have hfil : (d.values.map PyItem.tuple).filter (fun v => !(itemNotSupplied v))
          = d.values.map PyItem.tuple := by
        rw [List.filter_eq_self]
        intro x hx
        rcases List.mem_map.mp hx with ⟨t, ht, rfl⟩
        rfl
      rw [List.singleton_append, argumentsArgs]
      simp only [argumentArgs, pyIter, except_bind_ok, except_pure_eq, hfil]
      rw [ih]
      simp

/-- C2 (amended): for every `CommandSchema` whose non-multiple options
each carry at most one default tuple, with that tuple pairwise sortable,
whose multiple options have nonempty name lists with pairwise-distinct
first spellings, and whose arguments have pairwise-distinct names,
starting from an empty `UserCommandData`, `fill_defaults` followed by
`to_cli_args` with the root excluded yields a list with no option
tokens, consisting of the default tuples of the arguments with
non-`None` defaults — each tuple appended as one raw element (e.g. the
tuple `(123,)`, not the string `"123"`). -/
theorem C2_amended_roundtrip (c : String) (cs : CommandSchema)
    (h1 : ∀ os ∈ cs.options, os.multiple = false → ∀ d, os.default = Option.some d →
      d.values = [] ∨ ∃ t, d.values = [t] ∧ allComparable t = true)
    (h2 : ∀ os ∈ cs.options, os.multiple = true → os.name ≠ [])
    (h3 : (cs.options.filter (fun os => os.multiple)).Pairwise
      (fun a b => a.name.headD "" ≠ b.name.headD ""))
    (h4 : cs.arguments.Pairwise (fun a b => a.name ≠ b.name)) :
    ((UserCommandData.mk c [] [] Option.none).fillDefaults cs).toCliArgs false
      = .ok (cs.arguments.flatMap (fun a =>
          match a.default with
          | Option.none => []
          | Option.some d => d.values.map PyItem.tuple)) := by
  have hfill : (UserCommandData.mk c [] [] Option.none).fillDefaults cs
      = .mk c (fillDefaultsOptions cs.options []) (fillDefaultsArguments cs.arguments [])
          Option.none := rfl
  obtain ⟨hent, G2, hG2, hG2ok⟩ := fillOpts_good cs.options [] [] h1 h2 h3
    (fun e he => absurd he (List.not_mem_nil e)) rfl rfl
    (fun os hos hm g hg => absurd hg (List.not_mem_nil g))
  have hsingles := singlesArgs_ok_nil _ hent
  have hargsChar := fillArgs_char cs.arguments []
    (fun a ha u hu => absurd hu (List.not_mem_nil u)) h4
  have hargs : argumentsArgs (fillDefaultsArguments cs.arguments [])
      = .ok (cs.arguments.flatMap (fun a =>
          match a.default with
          | Option.none => []
          | Option.some d => d.values.map PyItem.tuple)) := by
    rw [hargsChar, List.nil_append]
    exact argumentsArgs_default_entries cs.arguments
  rw [hfill]
  simp [UserCommandData.toCliArgs, UserCommandData.toCliArgsAux, commandLevelArgs,
    hsingles, hG2, hG2ok, hargs]

/-- The schema used against C2: the spec's own scenario (options with
scalar defaults, an int argument with default `123`) extended with a
non-multiple option carrying a two-tuple default and two `multiple=True`
options sharing the first spelling `-m`. -/
def schemaC2 : CommandSchema :=
  .mk "test"
    [ { name := ["--option1"], default := Option.some ⟨[[.str "default1"]]⟩ },
      { name := ["--option2"], default := Option.some ⟨[[.int 42]]⟩ },
      { name := ["--pair"], default := Option.some ⟨[[.int 1], [.int 2]]⟩ },
      { name := ["-m", "--mult1"], multiple := true, default := Option.some ⟨[[.str "a"]]⟩ },
      { name := ["-m", "--mult2"], multiple := true, default := Option.some ⟨[[.str "b"]]⟩ } ]
    [ { name := "arg1", default := Option.some ⟨[[.int 123]]⟩ } ]
    []

/-- C2 fails as stated: after `fill_defaults` on an empty
`UserCommandData`, `to_cli_args` (root excluded) does not yield the
default argument values as individual string tokens.  The argument is
emitted as the raw tuple `(123,)` (never the string `"123"`), a
non-multiple option with a multi-tuple default is emitted (`--pair 1
--pair 2`), and two multiple options sharing a first spelling leak their
defaults (`-m a -m b`). -/
theorem C2_counterexample :
    ((UserCommandData.mk "test" [] [] Option.none).fillDefaults schemaC2).toCliArgs false
      = .ok [ .scalar (.str "--pair"), .scalar (.int 1),
              .scalar (.str "--pair"), .scalar (.int 2),
              .scalar (.str "-m"), .scalar (.str "a"),
              .scalar (.str "-m"), .scalar (.str "b"),
              .tuple [.int 123] ]
    ∧ ((UserCommandData.mk "test" [] [] Option.none).fillDefaults schemaC2).toCliArgs false
        ≠ .ok [PyItem.scalar (.str "123")] := by
  refine ⟨by decide, by decide⟩

/-- The spec's scenario-1 schema (no pathological options). -/
def schemaC2w : CommandSchema :=
  .mk "test"
    [ { name := ["--option1"], default := Option.some ⟨[[.str "default1"]]⟩ },
      { name := ["--option2"], default := Option.some ⟨[[.int 42]]⟩ } ]
    [ { name := "arg1", default := Option.some ⟨[[.int 123]]⟩ } ]
    []

theorem C2_witness :
    ((UserCommandData.mk "test" [] [] Option.none).fillDefaults schemaC2w).toCliArgs false
      = .ok [PyItem.tuple [.int 123]] := by
  have h1 : ∀ os ∈ schemaC2w.options, os.multiple = false →
      ∀ d, os.default = Option.some d →
      d.values = [] ∨ ∃ t, d.values = [t] ∧ allComparable t = true := by
    intro os hos hm d hd
    simp only [schemaC2w, CommandSchema.options, List.mem_cons, List.not_mem_nil,
      or_false] at hos
    rcases hos with rfl | rfl
    · injection hd with h
      subst h
      exact Or.inr ⟨[.str "default1"], rfl, by decide⟩
    · injection hd with h
      subst h
      exact Or.inr ⟨[.int 42], rfl, by decide⟩
  have h2 : ∀ os ∈ schemaC2w.options, os.multiple = true → os.name ≠ [] := by
    intro os hos hm
    simp only [schemaC2w, CommandSchema.options, List.mem_cons, List.not_mem_nil,
      or_false] at hos
    rcases hos with rfl | rfl <;> simp at hm ⊢
  have h3 : ((schemaC2w.options).filter (fun os => os.multiple)).Pairwise
      (fun a b => a.name.headD "" ≠ b.name.headD "") := by
    decide
  have h4 : schemaC2w.arguments.Pairwise (fun a b => a.name ≠ b.name) := by
    decide
  exact C2_amended_roundtrip "test" schemaC2w h1 h2 h3 h4
